import Mathlib

/-!
Shallow embedding of `src/resetdb.py` (AU Archive reset script).

Paths are modelled as an absoluteness flag plus a list of components
(mirroring `pathlib.Path`: the anchor plus `parts`). The filesystem is a
finite model: a list of file paths and a list of directory paths that
exist; a path "exists" when it is an entry or an ancestor of an entry.
Execution is explicit state passing over a world holding the filesystem,
a fault oracle (one Boolean per attempted OS-level mutation; `true`
means that OS call raises an error, which the script's `try/except`
blocks then catch), and an event trace recording the script's prints
and removal outcomes in order.
-/

namespace ResetDb

/-- A `pathlib.Path`: anchor (absolute or not) plus the component parts. -/
structure PyPath where
  absolute : Bool
  parts : List String
deriving DecidableEq, Repr

/-- `p / s` in pathlib: append one component. -/
def PyPath.child (p : PyPath) (s : String) : PyPath :=
  ⟨p.absolute, p.parts ++ [s]⟩

/-- `p.parent` in pathlib: drop the last component. -/
def PyPath.parent (p : PyPath) : PyPath :=
  ⟨p.absolute, p.parts.dropLast⟩

/-- `p.name` in pathlib: the last component (empty for the anchor-only path). -/
def PyPath.name (p : PyPath) : String :=
  p.parts.getLast? |>.getD ""

/-- `p` is an ancestor of `q` or equal to it (same anchor, parts prefix). -/
def pathLe (p q : PyPath) : Bool :=
  p.absolute == q.absolute && p.parts.isPrefixOf q.parts

/-- `p` is a strict ancestor of `q`. -/
def pathLt (p q : PyPath) : Bool :=
  pathLe p q && p != q

/-- Finite filesystem model: the file entries and directory entries that
exist. A directory that currently holds entries need not be listed in
`dirs`; an empty directory must be, or it does not exist. -/
structure FS where
  files : List PyPath
  dirs : List PyPath
deriving DecidableEq, Repr

/-- `path.exists()`: `p` is an entry, or a strict ancestor of an entry. -/
def pathExists (fs : FS) (p : PyPath) : Bool :=
  (fs.files ++ fs.dirs).any (fun q => p == q || pathLt p q)

/-- `not any(p.iterdir())`: no entry lies strictly below `p`. -/
def dirEmpty (fs : FS) (p : PyPath) : Bool :=
  !(fs.files ++ fs.dirs).any (fun q => pathLt p q)

/-- `p` is a directory in the model: a `dirs` entry or a strict ancestor
of some entry. -/
def isDirLike (fs : FS) (p : PyPath) : Bool :=
  fs.dirs.any (fun q => p == q || pathLt p q) || fs.files.any (fun q => pathLt p q)

/-- Effect of a successful `os.unlink p` on the filesystem: the file
entry `p` is gone (identity when `p` is not a file entry). -/
def unlinkFS (fs : FS) (p : PyPath) : FS :=
  ⟨fs.files.filter (fun q => q != p), fs.dirs⟩

/-- Effect of a successful `shutil.rmtree p`: every entry at or below
`p` is gone. -/
def rmtreeFS (fs : FS) (p : PyPath) : FS :=
  ⟨fs.files.filter (fun q => !(pathLe p q)), fs.dirs.filter (fun q => !(pathLe p q))⟩

/-- Effect of a successful `p.rmdir()`: the empty-directory entry `p` is gone. -/
def rmdirFS (fs : FS) (p : PyPath) : FS :=
  ⟨fs.files, fs.dirs.filter (fun q => q != p)⟩

/-- One observable event of a run: a plain printed line, a plan line
naming a path slated for removal, or a removal outcome printed by the
removal primitives (`✓ Removed`, `✗ Failed to remove` with the OS error
message, `- not found`), or the success line of the data-directory
`rmdir` step. -/
inductive Event where
  | print (s : String)
  | planPrint (label : String) (p : PyPath)
  | removedFile (label : String) (p : PyPath)
  | removedDir (label : String) (p : PyPath)
  | removeFailed (label : String) (p : PyPath) (msg : String)
  | notFound (label : String) (p : PyPath)
  | removedDataDir (p : PyPath)
deriving DecidableEq, Repr

/-- World state threaded through a run: filesystem, remaining fault
oracle, and the trace of events so far. -/
structure W where
  fs : FS
  faults : List Bool
  trace : List Event
deriving DecidableEq, Repr

/-- Append an event to the trace. -/
def emit (w : W) (e : Event) : W :=
  { w with trace := w.trace ++ [e] }

/-- Consume one fault-oracle tick: whether the next OS-level mutation
raises. The empty oracle means no faults. -/
def popFault (w : W) : Bool × W :=
  match w.faults with
  | [] => (false, w)
  | b :: rest => (b, { w with faults := rest })

/-- Fixed stand-in text for the message of an injected OS error. -/
def osErrMsg : String := "Operation not permitted"

/-- `remove_file(path, name)` (src/resetdb.py lines 52-64): if the path
exists, `unlink` it inside try/except — success, or a caught and
reported failure (injected fault, or the path is a directory); if the
path does not exist, report "not found". Always returns without
propagating an exception; the Bool is the source's return value. -/
def remove_file (w : W) (p : PyPath) (label : String) : W × Bool :=
  if pathExists w.fs p then
    let (fault, w') := popFault w
    if fault then
      (emit w' (.removeFailed label p osErrMsg), false)
    else if w'.fs.files.contains p then
      (emit { w' with fs := unlinkFS w'.fs p } (.removedFile label p), true)
    else
      (emit w' (.removeFailed label p "Is a directory"), false)
  else
    (emit w (.notFound label p), false)

/-- `remove_dir(path, name)` (src/resetdb.py lines 67-79): if the path
exists, `shutil.rmtree` it inside try/except — success, or a caught and
reported failure (injected fault, or the path is a plain file); if the
path does not exist, report "not found". Always returns without
propagating an exception; the Bool is the source's return value. -/
def remove_dir (w : W) (p : PyPath) (label : String) : W × Bool :=
  if pathExists w.fs p then
    let (fault, w') := popFault w
    if fault then
      (emit w' (.removeFailed label p osErrMsg), false)
    else if isDirLike w'.fs p then
      (emit { w' with fs := rmtreeFS w'.fs p } (.removedDir label p), true)
    else
      (emit w' (.removeFailed label p "Not a directory"), false)
  else
    (emit w (.notFound label p), false)

/-- Host environment consumed by the script: `platform.system()`,
`Path.home()`, `os.environ.get("APPDATA")` (absent when unset), and
`Path.cwd()`. -/
structure Env where
  system : String
  home : PyPath
  appdata : Option String
  cwd : PyPath
deriving DecidableEq, Repr

/-- A Windows path string is absolute when drive-rooted (`C:\` or `C:/`)
or a UNC share (`\\...`), mirroring `pathlib.PureWindowsPath.is_absolute`. -/
def isAbsoluteWin (s : String) : Bool :=
  (match s.data with
   | c :: d :: sep :: _ => c.isAlpha && d == ':' && (sep == '\\' || sep == '/')
   | _ => false) || s.startsWith "\\\\"

/-- `Path(s)` for a Windows environment-variable value: the empty string
gives the relative empty path (Python's `Path("")` is `.`); otherwise the
string is kept as one opaque component chunk, since the script never
inspects inside it, with absoluteness per `isAbsoluteWin`. -/
def windowsPathOfString (s : String) : PyPath :=
  if s == "" then ⟨false, []⟩ else ⟨isAbsoluteWin s, [s]⟩

/-- Split a character list at `/` separators (the segments of a POSIX
path string), written by structural recursion so it evaluates inside
the kernel. -/
def splitSlashAux : List Char → List Char → List String
  | [], cur => [String.mk cur.reverse]
  | c :: rest, cur =>
    if c == '/' then String.mk cur.reverse :: splitSlashAux rest []
    else splitSlashAux rest (c :: cur)

/-- `Path(s)` for a user-supplied POSIX-style path string (the archive
root argument): absolute when it starts with `/`, components split on
`/` with empty and `.` segments dropped. -/
def pathOfString (s : String) : PyPath :=
  ⟨(match s.data with
    | c :: _ => c == '/'
    | [] => false),
   (splitSlashAux s.data []).filter (fun c => c != "" && c != ".")⟩

/-- `get_config_dir()` (src/resetdb.py lines 18-29). -/
def get_config_dir (env : Env) : PyPath :=
  if env.system == "Windows" then
    let appdata := env.appdata.getD ""
    ((windowsPathOfString appdata).child "@au-archive").child "desktop"
  else if env.system == "Darwin" then
    ((((env.home.child "Library").child "Application Support").child "@au-archive").child "desktop")
  else
    (((env.home.child ".config").child "@au-archive").child "desktop")

/-- `get_dev_data_dir()` (src/resetdb.py lines 32-39): the dev data
directory when the cwd looks like the project root, else `None`. -/
def get_dev_data_dir (fs : FS) (cwd : PyPath) : Option PyPath :=
  let dev_data := ((cwd.child "packages").child "desktop").child "data"
  if pathExists fs dev_data || pathExists fs ((cwd.child "packages").child "desktop") then
    some dev_data
  else
    none

/-- `get_default_db_path()` (src/resetdb.py lines 42-44). -/
def get_default_db_path (env : Env) : PyPath :=
  ((get_config_dir env).child "data").child "au-archive.db"

/-- `get_bootstrap_config_path()` (src/resetdb.py lines 47-49). -/
def get_bootstrap_config_path (env : Env) : PyPath :=
  (get_config_dir env).child "config.json"

/-- `s.strip()`: drop leading and trailing whitespace, modelled over the
character list so that it evaluates inside the kernel. -/
def pyStrip (s : String) : String :=
  ⟨((s.data.dropWhile Char.isWhitespace).reverse.dropWhile Char.isWhitespace).reverse⟩

/-- `s.lower()`: lowercase every character. -/
def pyLower (s : String) : String :=
  ⟨s.data.map Char.toLower⟩

/-- `response.strip().lower() in ("y", "yes")` (src/resetdb.py lines
119-120 and 205-206). -/
def isAffirmative (response : String) : Bool :=
  let r := pyLower (pyStrip response)
  r == "y" || r == "yes"

/-- `db_path.parent / (db_path.name + suffix)`: a WAL/SHM sidecar path. -/
def sidecar (db : PyPath) (suffix : String) : PyPath :=
  db.parent.child (db.name ++ suffix)

/-- The plan-printing block of `reset_database` (src/resetdb.py lines
98-113): one plan line per path slated for removal. -/
def resetPlanPrints (env : Env) (dev : Option PyPath) (archive : Option String) (w : W) : W :=
  let config_dir := get_config_dir env
  let w := emit w (.print "The following will be removed:")
  let w := emit w (.planPrint "Database" (get_default_db_path env))
  let w := emit w (.planPrint "Config" (get_bootstrap_config_path env))
  let w := emit w (.planPrint "Data directory" (config_dir.child "data"))
  let w := emit w (.planPrint "Backups directory" (config_dir.child "backups"))
  let w :=
    match dev with
    | some d =>
      let w := emit w (.planPrint "Dev database" (d.child "au-archive.db"))
      let w := emit w (.planPrint "Dev config" (d.child "config.json"))
      emit w (.planPrint "Dev backups" (d.child "backups"))
    | none => w
  match archive with
  | some a =>
    let ar := pathOfString a
    let w := emit w (.planPrint "Thumbnails" (ar.child ".thumbnails"))
    let w := emit w (.planPrint "Previews" (ar.child ".previews"))
    emit w (.planPrint "Posters" (ar.child ".posters"))
  | none => w

/-- The data-directory cleanup block (src/resetdb.py lines 140-146):
`try: if not any(data_dir.iterdir()): data_dir.rmdir(); print(...)
except Exception: pass` — a failing `rmdir` is swallowed silently, with
no report to the user. -/
def dataDirCleanup (w : W) (data_dir : PyPath) : W :=
  if dirEmpty w.fs data_dir then
    let (fault, w') := popFault w
    if fault then
      w'
    else if w'.fs.dirs.contains data_dir then
      emit { w' with fs := rmdirFS w'.fs data_dir } (.removedDataDir data_dir)
    else
      w'
  else
    w

/-- The dev-mode removal block of `reset_database` (src/resetdb.py lines
153-160). -/
def resetDevRemovals (d : PyPath) (w : W) : W :=
  let w := emit w (.print "Removing development files...")
  let w := (remove_file w (d.child "au-archive.db") "Dev database").1
  let w := (remove_file w (d.child "au-archive.db-wal") "Dev database -wal file").1
  let w := (remove_file w (d.child "au-archive.db-shm") "Dev database -shm file").1
  let w := (remove_file w (d.child "config.json") "Dev config").1
  (remove_dir w (d.child "backups") "Dev backups directory").1

/-- The archive-support removal block of `reset_database`
(src/resetdb.py lines 163-168). -/
def resetArchiveRemovals (a : String) (w : W) : W :=
  let ar := pathOfString a
  let w := emit w (.print "Removing archive support files...")
  let w := (remove_dir w (ar.child ".thumbnails") "Thumbnails directory").1
  let w := (remove_dir w (ar.child ".previews") "Previews directory").1
  (remove_dir w (ar.child ".posters") "Posters directory").1

/-- The WAL/SHM sidecar removals and the empty-data-directory cleanup
(src/resetdb.py lines 135-146), run only when the data directory
exists. -/
def resetJournal (env : Env) (w : W) : W :=
  let db_path := get_default_db_path env
  let w := (remove_file w (sidecar db_path "-wal") "Database -wal file").1
  let w := (remove_file w (sidecar db_path "-shm") "Database -shm file").1
  dataDirCleanup w ((get_config_dir env).child "data")

/-- The tail of the full-reset removal sequence (src/resetdb.py lines
148-170): backups directory, dev block when detected, archive block
when supplied, closing banner. -/
def resetFinish (env : Env) (dev : Option PyPath) (archive : Option String) (w : W) : W :=
  let w := (remove_dir w ((get_config_dir env).child "backups") "Backups directory").1
  let w :=
    match dev with
    | some d => resetDevRemovals d w
    | none => w
  let w :=
    match archive with
    | some a => resetArchiveRemovals a w
    | none => w
  emit w (.print "Reset complete!")

/-- The removal sequence of a confirmed `reset_database`
(src/resetdb.py lines 124-170): database file, config file, then —
only when the data directory exists — the WAL/SHM sidecars and the
empty-data-directory cleanup, then the backups directory, then the dev
block when detected, then the archive block when supplied. -/
def resetRemovals (env : Env) (dev : Option PyPath) (archive : Option String) (w : W) : W :=
  let w := emit w (.print "Removing files...")
  let w := (remove_file w (get_default_db_path env) "Database").1
  let w := (remove_file w (get_bootstrap_config_path env) "Config").1
  let w :=
    if pathExists w.fs ((get_config_dir env).child "data") then
      resetJournal env w
    else
      w
  resetFinish env dev archive w

/-- `reset_database(archive_path, force)` (src/resetdb.py lines
82-170): print the plan, gate on confirmation unless forced, then run
the removal sequence. The dev data directory is detected once, from the
initial filesystem. -/
def reset_database (env : Env) (archive : Option String) (force : Bool) (response : String) (w : W) : W :=
  let w := emit w (.print "=== AU Archive Reset Script ===")
  let dev := get_dev_data_dir w.fs env.cwd
  let w := resetPlanPrints env dev archive w
  if force || isAffirmative response then
    resetRemovals env dev archive w
  else
    emit w (.print "Aborted.")

/-- The removal sequence of the `--db-only` branch (src/resetdb.py
lines 210-227): the database file, its WAL/SHM sidecars (each only when
it exists, with no "not found" report otherwise), and the dev database
with its sidecars when the dev directory was detected. -/
def dbOnlyRemovals (env : Env) (dev : Option PyPath) (w : W) : W :=
  let db_path := get_default_db_path env
  let w := emit w (.print "Removing database...")
  let w := (remove_file w db_path "Database").1
  let w :=
    if pathExists w.fs (sidecar db_path "-wal") then
      (remove_file w (sidecar db_path "-wal") "Database -wal file").1
    else
      w
  let w :=
    if pathExists w.fs (sidecar db_path "-shm") then
      (remove_file w (sidecar db_path "-shm") "Database -shm file").1
    else
      w
  let w :=
    match dev with
    | some d =>
      let w := emit w (.print "Removing dev database...")
      let w := (remove_file w (d.child "au-archive.db") "Dev database").1
      let w := (remove_file w (d.child "au-archive.db-wal") "Dev database -wal file").1
      (remove_file w (d.child "au-archive.db-shm") "Dev database -shm file").1
    | none => w
  emit w (.print "Done!")

/-- The `--db-only` branch of `main()` (src/resetdb.py lines 196-227):
the "Will remove" plan lines and the confirmation prompt sit inside the
`if not args.force:` block, so a forced run prints no plan. -/
def mainDbOnly (env : Env) (force : Bool) (response : String) (w : W) : W :=
  let w := emit w (.print "=== AU Archive Reset Script (DB Only) ===")
  let db_path := get_default_db_path env
  let dev := get_dev_data_dir w.fs env.cwd
  if !force then
    let w := emit w (.planPrint "Will remove" db_path)
    let w :=
      match dev with
      | some d => emit w (.planPrint "Will remove" (d.child "au-archive.db"))
      | none => w
    if isAffirmative response then
      dbOnlyRemovals env dev w
    else
      emit w (.print "Aborted.")
  else
    dbOnlyRemovals env dev w

/-- `main()` (src/resetdb.py lines 173-229) after argument parsing:
dispatch on `--db-only`. -/
def main (env : Env) (archive : Option String) (force dbOnly : Bool) (response : String) (w : W) : W :=
  if dbOnly then
    mainDbOnly env force response w
  else
    reset_database env archive force response w

/-- Initial world for a run: the given filesystem and fault oracle, an
empty trace. -/
def initW (fs : FS) (faults : List Bool) : W :=
  ⟨fs, faults, []⟩

/-! ### Trace projections and auxiliary predicates used by the claims -/

/-- The paths of the removals that were successfully executed, in trace
order. -/
def removalTargets (es : List Event) : List PyPath :=
  es.filterMap (fun e =>
    match e with
    | .removedFile _ p => some p
    | .removedDir _ p => some p
    | .removedDataDir p => some p
    | _ => none)

/-- An event recording that a removal was attempted on some path (the
primitives report success, failure, or "not found"; the data-directory
`rmdir` reports success only). Plain prints and plan lines are not
attempts. -/
def isAttemptEvent (e : Event) : Bool :=
  match e with
  | .print _ => false
  | .planPrint _ _ => false
  | _ => true

/-- The path an attempt event is about. -/
def attemptTarget (e : Event) : Option PyPath :=
  match e with
  | .removedFile _ p => some p
  | .removedDir _ p => some p
  | .removeFailed _ p _ => some p
  | .notFound _ p => some p
  | .removedDataDir p => some p
  | _ => none

/-- The paths of all attempted removals, in trace order. -/
def attemptTargets (es : List Event) : List PyPath :=
  es.filterMap attemptTarget

/-- The dev-mode removal targets, when a dev data directory was
detected. -/
def devSeg (dev : Option PyPath) : List PyPath :=
  match dev with
  | some d => [d.child "au-archive.db", d.child "au-archive.db-wal",
               d.child "au-archive.db-shm", d.child "config.json", d.child "backups"]
  | none => []

/-- The archive-subdirectory removal targets, when an archive root was
supplied. -/
def archSeg (archive : Option String) : List PyPath :=
  match archive with
  | some a => [(pathOfString a).child ".thumbnails", (pathOfString a).child ".previews",
               (pathOfString a).child ".posters"]
  | none => []

/-- The full-reset removal order stated by the spec: database file,
config file, WAL/SHM sidecars, data directory, backups directory, then
the dev-mode equivalents when detected, then the archive
subdirectories when supplied. -/
def fullResetOrder (env : Env) (dev : Option PyPath) (archive : Option String) : List PyPath :=
  [get_default_db_path env, get_bootstrap_config_path env,
   sidecar (get_default_db_path env) "-wal", sidecar (get_default_db_path env) "-shm",
   (get_config_dir env).child "data", (get_config_dir env).child "backups"]
  ++ devSeg dev ++ archSeg archive

/-- The removal targets of a `--db-only` run: the database file and its
sidecars, primary and (when detected) dev. -/
def dbOnlyAllowed (env : Env) (dev : Option PyPath) : List PyPath :=
  [get_default_db_path env, sidecar (get_default_db_path env) "-wal",
   sidecar (get_default_db_path env) "-shm"]
  ++ (match dev with
      | some d => [d.child "au-archive.db", d.child "au-archive.db-wal",
                   d.child "au-archive.db-shm"]
      | none => [])

/-- The filesystem model is ancestor-closed, as a real filesystem is:
every strict ancestor of an existing entry is itself a directory entry.
Stated over `List.take` so that it is decidable on concrete models. -/
def FS.closedUnder (fs : FS) : Prop :=
  ∀ q ∈ fs.files ++ fs.dirs, ∀ k, k < q.parts.length →
    PyPath.mk q.absolute (q.parts.take k) ∈ fs.dirs

instance (fs : FS) : Decidable fs.closedUnder := by
  unfold FS.closedUnder
  infer_instance

/-- The dev-mode removal targets neither lie inside the given
directory nor (for the dev backups tree) contain it: the layout the
host application actually produces. -/
abbrev devSeparate (dataDir d : PyPath) : Prop :=
  pathLe dataDir (d.child "au-archive.db") = false ∧
  pathLe dataDir (d.child "au-archive.db-wal") = false ∧
  pathLe dataDir (d.child "au-archive.db-shm") = false ∧
  pathLe dataDir (d.child "config.json") = false ∧
  pathLe dataDir (d.child "backups") = false ∧
  pathLe (d.child "backups") dataDir = false

/-- The archive support subdirectories neither lie inside the given
directory nor contain it. -/
abbrev archiveSeparate (dataDir : PyPath) (a : String) : Prop :=
  pathLe dataDir ((pathOfString a).child ".thumbnails") = false ∧
  pathLe ((pathOfString a).child ".thumbnails") dataDir = false ∧
  pathLe dataDir ((pathOfString a).child ".previews") = false ∧
  pathLe ((pathOfString a).child ".previews") dataDir = false ∧
  pathLe dataDir ((pathOfString a).child ".posters") = false ∧
  pathLe ((pathOfString a).child ".posters") dataDir = false

/-- Modelled from the spec's words (section 4.1): the platform-appropriate
base configuration directory — the roaming-app-data path on Windows, the
`Library/Application Support` path on macOS, the `.config` path
otherwise — before the application namespace is appended. Used only to
compare `get_config_dir` against the specification. -/
def specConfigBase (env : Env) : PyPath :=
  if env.system == "Windows" then
    windowsPathOfString (env.appdata.getD "")
  else if env.system == "Darwin" then
    (env.home.child "Library").child "Application Support"
  else
    env.home.child ".config"

/-- The event is not the `Aborted.` line. -/
def notAborted (e : Event) : Bool :=
  e != Event.print "Aborted."

/-- The dev-mode separation hypothesis lifted to the optional dev
directory: trivially true when none was detected. -/
abbrev devSepAll (dd : PyPath) (dev : Option PyPath) : Prop :=
  match dev with
  | some d => devSeparate dd d
  | none => True

/-- The archive separation hypothesis lifted to the optional archive
root: trivially true when none was supplied. -/
abbrev archSepAll (dd : PyPath) (archive : Option String) : Prop :=
  match archive with
  | some a => archiveSeparate dd a
  | none => True

instance (dd : PyPath) (o : Option PyPath) : Decidable (devSepAll dd o) :=
  match o with
  | some d => inferInstanceAs (Decidable (devSeparate dd d))
  | none => .isTrue trivial

instance (dd : PyPath) (o : Option String) : Decidable (archSepAll dd o) :=
  match o with
  | some a => inferInstanceAs (Decidable (archiveSeparate dd a))
  | none => .isTrue trivial

/-- The filesystem state after the four file removals of a full reset
(database, config, WAL sidecar, SHM sidecar): the point at which the
data directory's emptiness is tested. -/
def midFS (env : Env) (fs : FS) : FS :=
  unlinkFS (unlinkFS (unlinkFS (unlinkFS fs (get_default_db_path env))
    (get_bootstrap_config_path env)) (sidecar (get_default_db_path env) "-wal"))
    (sidecar (get_default_db_path env) "-shm")

/-! ### The one event each primitive invocation appends to the trace -/

/-- The event `remove_file` reports, as a function of the pre-state. -/
def removeFileEvent (fs : FS) (faults : List Bool) (p : PyPath) (n : String) : Event :=
  if pathExists fs p then
    if faults.headD false then .removeFailed n p osErrMsg
    else if fs.files.contains p then .removedFile n p
    else .removeFailed n p "Is a directory"
  else .notFound n p

/-- The event `remove_dir` reports, as a function of the pre-state. -/
def removeDirEvent (fs : FS) (faults : List Bool) (p : PyPath) (n : String) : Event :=
  if pathExists fs p then
    if faults.headD false then .removeFailed n p osErrMsg
    else if isDirLike fs p then .removedDir n p
    else .removeFailed n p "Not a directory"
  else .notFound n p

/-- The events (none or one) the data-directory cleanup reports. -/
def cleanupEvents (fs : FS) (faults : List Bool) (d : PyPath) : List Event :=
  if dirEmpty fs d then
    if faults.headD false then []
    else if fs.dirs.contains d then [.removedDataDir d] else []
  else []


/-! ### Basic lemmas about the world operations -/

@[simp]
theorem emit_fs (w : W) (e : Event) : (emit w e).fs = w.fs := rfl

@[simp]
theorem emit_faults (w : W) (e : Event) : (emit w e).faults = w.faults := rfl

@[simp]
theorem emit_trace (w : W) (e : Event) : (emit w e).trace = w.trace ++ [e] := rfl

@[simp]
theorem popFault_fs (w : W) : (popFault w).2.fs = w.fs := by
  cases h : w.faults <;> simp [popFault, h]

@[simp]
theorem popFault_trace (w : W) : (popFault w).2.trace = w.trace := by
  cases h : w.faults <;> simp [popFault, h]

@[simp]
theorem popFault_fst (w : W) : (popFault w).1 = w.faults.headD false := by
  cases h : w.faults <;> simp [popFault, h]

@[simp]
theorem popFault_faults (w : W) : (popFault w).2.faults = w.faults.tail := by
  cases h : w.faults <;> simp [popFault, h]

/-! ### Path algebra -/

theorem pathLe_iff (p q : PyPath) :
    pathLe p q = true ↔ p.absolute = q.absolute ∧ p.parts <+: q.parts := by
  simp [pathLe, List.isPrefixOf_iff_prefix]

theorem pathLt_iff (p q : PyPath) :
    pathLt p q = true ↔ (p.absolute = q.absolute ∧ p.parts <+: q.parts) ∧ p ≠ q := by
  simp [pathLt, pathLe_iff]

theorem pathLt_child (p : PyPath) (s : String) : pathLt p (p.child s) = true := by
  refine (pathLt_iff _ _).mpr ⟨⟨rfl, ⟨[s], rfl⟩⟩, ?_⟩
  intro h
  have := congrArg (fun q => q.parts.length) h
  simp [PyPath.child] at this

@[simp]
theorem parent_child (p : PyPath) (s : String) : (p.child s).parent = p := by
  simp [PyPath.child, PyPath.parent]

@[simp]
theorem name_child (p : PyPath) (s : String) : (p.child s).name = s := by
  simp [PyPath.child, PyPath.name]

/-- Two children of the same path with distinct final components are
never ancestor-related. -/
theorem pathLe_child_child (p : PyPath) (s t : String) (h : s ≠ t) :
    pathLe (p.child s) (p.child t) = false := by
  rw [← Bool.not_eq_true]
  intro hc
  obtain ⟨-, hpre⟩ := (pathLe_iff _ _).mp hc
  have hlen : (p.child s).parts.length = (p.child t).parts.length := by
    simp [PyPath.child]
  have := hpre.eq_of_length hlen
  simp [PyPath.child] at this
  exact h this

/-- Paths whose final components differ are distinct. -/
theorem child_ne_child (p q : PyPath) (s t : String) (h : s ≠ t) :
    p.child s ≠ q.child t := by
  intro he
  have := congrArg PyPath.name he
  simp at this
  exact h this

/-- Ancestors of a common path are comparable. -/
theorem pathLe_comparable {p q r : PyPath} (h1 : pathLe p r = true)
    (h2 : pathLe q r = true) : pathLe p q = true ∨ pathLe q p = true := by
  obtain ⟨ha1, hp1⟩ := (pathLe_iff _ _).mp h1
  obtain ⟨ha2, hp2⟩ := (pathLe_iff _ _).mp h2
  rcases List.prefix_or_prefix_of_prefix hp1 hp2 with h | h
  · exact Or.inl ((pathLe_iff _ _).mpr ⟨ha1.trans ha2.symm, h⟩)
  · exact Or.inr ((pathLe_iff _ _).mpr ⟨ha2.trans ha1.symm, h⟩)

theorem pathLe_of_pathLt {p q : PyPath} (h : pathLt p q = true) : pathLe p q = true := by
  simp [pathLt] at h
  exact h.1

theorem pathLe_refl (p : PyPath) : pathLe p p = true := by
  simp [pathLe_iff]

theorem remove_file_trace (w : W) (p : PyPath) (n : String) :
    ((remove_file w p n).1).trace = w.trace ++ [removeFileEvent w.fs w.faults p n] := by
  rcases w with ⟨fs, faults, trace⟩
  cases faults <;>
    by_cases h : pathExists fs p <;>
    by_cases h2 : p ∈ fs.files <;>
    simp [remove_file, removeFileEvent, popFault, emit, h, h2] <;>
    split <;> simp

theorem remove_dir_trace (w : W) (p : PyPath) (n : String) :
    ((remove_dir w p n).1).trace = w.trace ++ [removeDirEvent w.fs w.faults p n] := by
  rcases w with ⟨fs, faults, trace⟩
  cases faults <;>
    by_cases h : pathExists fs p <;>
    by_cases h2 : isDirLike fs p <;>
    simp [remove_dir, removeDirEvent, popFault, emit, h, h2] <;>
    split <;> simp

theorem dataDirCleanup_trace (w : W) (d : PyPath) :
    (dataDirCleanup w d).trace = w.trace ++ cleanupEvents w.fs w.faults d := by
  rcases w with ⟨fs, faults, trace⟩
  cases faults <;>
    by_cases h : dirEmpty fs d <;>
    by_cases h2 : d ∈ fs.dirs <;>
    simp [dataDirCleanup, cleanupEvents, popFault, emit, h, h2] <;>
    split <;> simp

theorem remove_file_fs (w : W) (p : PyPath) (n : String) :
    ((remove_file w p n).1).fs =
      if pathExists w.fs p && !(w.faults.headD false) && w.fs.files.contains p then
        unlinkFS w.fs p
      else
        w.fs := by
  rcases w with ⟨fs, faults, trace⟩
  cases faults <;>
    by_cases h : pathExists fs p <;>
    by_cases h2 : p ∈ fs.files <;>
    simp [remove_file, popFault, emit, h, h2] <;>
    split <;> simp_all

theorem remove_dir_fs (w : W) (p : PyPath) (n : String) :
    ((remove_dir w p n).1).fs =
      if pathExists w.fs p && !(w.faults.headD false) && isDirLike w.fs p then
        rmtreeFS w.fs p
      else
        w.fs := by
  rcases w with ⟨fs, faults, trace⟩
  cases faults <;>
    by_cases h : pathExists fs p <;>
    by_cases h2 : isDirLike fs p <;>
    simp [remove_dir, popFault, emit, h, h2] <;>
    split <;> simp_all

theorem dataDirCleanup_fs (w : W) (d : PyPath) :
    (dataDirCleanup w d).fs =
      if dirEmpty w.fs d && !(w.faults.headD false) && w.fs.dirs.contains d then
        rmdirFS w.fs d
      else
        w.fs := by
  rcases w with ⟨fs, faults, trace⟩
  cases faults <;>
    by_cases h : dirEmpty fs d <;>
    by_cases h2 : d ∈ fs.dirs <;>
    simp [dataDirCleanup, popFault, emit, h, h2] <;>
    split <;> simp_all

theorem remove_file_faults (w : W) (p : PyPath) (n : String) :
    ((remove_file w p n).1).faults =
      if pathExists w.fs p then w.faults.tail else w.faults := by
  rcases w with ⟨fs, faults, trace⟩
  cases faults <;>
    by_cases h : pathExists fs p <;>
    by_cases h2 : p ∈ fs.files <;>
    simp [remove_file, popFault, emit, h, h2] <;>
    split <;> simp

theorem remove_dir_faults (w : W) (p : PyPath) (n : String) :
    ((remove_dir w p n).1).faults =
      if pathExists w.fs p then w.faults.tail else w.faults := by
  rcases w with ⟨fs, faults, trace⟩
  cases faults <;>
    by_cases h : pathExists fs p <;>
    by_cases h2 : isDirLike fs p <;>
    simp [remove_dir, popFault, emit, h, h2] <;>
    split <;> simp

theorem dataDirCleanup_faults (w : W) (d : PyPath) :
    (dataDirCleanup w d).faults =
      if dirEmpty w.fs d then w.faults.tail else w.faults := by
  rcases w with ⟨fs, faults, trace⟩
  cases faults <;>
    by_cases h : dirEmpty fs d <;>
    by_cases h2 : d ∈ fs.dirs <;>
    simp [dataDirCleanup, popFault, emit, h, h2] <;>
    split <;> simp

/-! ### Shape facts about the reported events -/

theorem removeFileEvent_attempt (fs : FS) (faults : List Bool) (p : PyPath) (n : String) :
    isAttemptEvent (removeFileEvent fs faults p n) = true := by
  unfold removeFileEvent
  split
  · split
    · rfl
    · split <;> rfl
  · rfl

theorem removeDirEvent_attempt (fs : FS) (faults : List Bool) (p : PyPath) (n : String) :
    isAttemptEvent (removeDirEvent fs faults p n) = true := by
  unfold removeDirEvent
  split
  · split
    · rfl
    · split <;> rfl
  · rfl

theorem removeFileEvent_target (fs : FS) (faults : List Bool) (p : PyPath) (n : String) :
    attemptTarget (removeFileEvent fs faults p n) = some p := by
  unfold removeFileEvent
  split
  · split
    · rfl
    · split <;> rfl
  · rfl

theorem removeDirEvent_target (fs : FS) (faults : List Bool) (p : PyPath) (n : String) :
    attemptTarget (removeDirEvent fs faults p n) = some p := by
  unfold removeDirEvent
  split
  · split
    · rfl
    · split <;> rfl
  · rfl

theorem removeFileEvent_notAborted (fs : FS) (faults : List Bool) (p : PyPath) (n : String) :
    notAborted (removeFileEvent fs faults p n) = true := by
  unfold removeFileEvent
  split
  · split
    · simp [notAborted]
    · split <;> simp [notAborted]
  · simp [notAborted]

theorem removeDirEvent_notAborted (fs : FS) (faults : List Bool) (p : PyPath) (n : String) :
    notAborted (removeDirEvent fs faults p n) = true := by
  unfold removeDirEvent
  split
  · split
    · simp [notAborted]
    · split <;> simp [notAborted]
  · simp [notAborted]

/-! ### Trace projection algebra -/

@[simp]
theorem removalTargets_append (a b : List Event) :
    removalTargets (a ++ b) = removalTargets a ++ removalTargets b := by
  simp [removalTargets]

@[simp]
theorem attemptTargets_append (a b : List Event) :
    attemptTargets (a ++ b) = attemptTargets a ++ attemptTargets b := by
  simp [attemptTargets]

@[simp]
theorem removalTargets_nil : removalTargets [] = [] := rfl

@[simp]
theorem attemptTargets_nil : attemptTargets [] = [] := rfl

@[simp]
theorem removalTargets_print (s : String) : removalTargets [Event.print s] = [] := rfl

@[simp]
theorem removalTargets_planPrint (n : String) (p : PyPath) :
    removalTargets [Event.planPrint n p] = [] := rfl

@[simp]
theorem attemptTargets_print (s : String) : attemptTargets [Event.print s] = [] := rfl

@[simp]
theorem attemptTargets_planPrint (n : String) (p : PyPath) :
    attemptTargets [Event.planPrint n p] = [] := rfl

theorem removalTargets_removeFileEvent (fs : FS) (faults : List Bool) (p : PyPath) (n : String) :
    List.Sublist (removalTargets [removeFileEvent fs faults p n]) [p] := by
  unfold removeFileEvent
  split
  · split
    · simp [removalTargets]
    · split <;> simp [removalTargets]
  · simp [removalTargets]

theorem removalTargets_removeDirEvent (fs : FS) (faults : List Bool) (p : PyPath) (n : String) :
    List.Sublist (removalTargets [removeDirEvent fs faults p n]) [p] := by
  unfold removeDirEvent
  split
  · split
    · simp [removalTargets]
    · split <;> simp [removalTargets]
  · simp [removalTargets]

theorem removalTargets_cleanupEvents (fs : FS) (faults : List Bool) (d : PyPath) :
    List.Sublist (removalTargets (cleanupEvents fs faults d)) [d] := by
  unfold cleanupEvents
  split
  · split
    · simp
    · split <;> simp [removalTargets]
  · simp

theorem attemptTargets_removeFileEvent (fs : FS) (faults : List Bool) (p : PyPath) (n : String) :
    attemptTargets [removeFileEvent fs faults p n] = [p] := by
  simp [attemptTargets, removeFileEvent_target]

theorem attemptTargets_removeDirEvent (fs : FS) (faults : List Bool) (p : PyPath) (n : String) :
    attemptTargets [removeDirEvent fs faults p n] = [p] := by
  simp [attemptTargets, removeDirEvent_target]

theorem attemptTargets_cleanupEvents (fs : FS) (faults : List Bool) (d : PyPath) :
    List.Sublist (attemptTargets (cleanupEvents fs faults d)) [d] := by
  unfold cleanupEvents
  split
  · split
    · simp
    · split <;> simp [attemptTargets, attemptTarget]
  · simp

theorem cleanupEvents_notAborted (fs : FS) (faults : List Bool) (d : PyPath) :
    (cleanupEvents fs faults d).all notAborted = true := by
  unfold cleanupEvents
  split
  · split
    · simp
    · split <;> simp [notAborted]
  · simp

/-! ### Composite lemmas about the blocks of the reset flows -/

theorem resetPlanPrints_fs (env : Env) (dev : Option PyPath) (archive : Option String) (w : W) :
    (resetPlanPrints env dev archive w).fs = w.fs := by
  cases dev <;> cases archive <;> simp [resetPlanPrints, emit]

theorem resetPlanPrints_faults (env : Env) (dev : Option PyPath) (archive : Option String) (w : W) :
    (resetPlanPrints env dev archive w).faults = w.faults := by
  cases dev <;> cases archive <;> simp [resetPlanPrints, emit]

theorem resetPlanPrints_trace (env : Env) (dev : Option PyPath) (archive : Option String) (w : W) :
    ∃ t, (resetPlanPrints env dev archive w).trace = w.trace ++ t ∧
      t.all (fun e => !isAttemptEvent e && notAborted e) = true := by
  cases dev <;> cases archive <;>
    refine ⟨_, by simp only [resetPlanPrints, emit_trace, List.append_assoc]; rfl, ?_⟩ <;>
    simp [isAttemptEvent, notAborted]

/-! ### Accumulator-style step lemmas: successful-removal order -/

theorem sublist_grow {l acc : List PyPath} (more : List PyPath)
    (h : List.Sublist l acc) : List.Sublist l (acc ++ more) :=
  h.trans (List.sublist_append_left acc more)

theorem rf_RT {w : W} {acc : List PyPath} (p : PyPath) (n : String)
    (h : List.Sublist (removalTargets w.trace) acc) :
    List.Sublist (removalTargets ((remove_file w p n).1).trace) (acc ++ [p]) := by
  rw [remove_file_trace, removalTargets_append]
  exact List.Sublist.append h (removalTargets_removeFileEvent _ _ _ _)

theorem rd_RT {w : W} {acc : List PyPath} (p : PyPath) (n : String)
    (h : List.Sublist (removalTargets w.trace) acc) :
    List.Sublist (removalTargets ((remove_dir w p n).1).trace) (acc ++ [p]) := by
  rw [remove_dir_trace, removalTargets_append]
  exact List.Sublist.append h (removalTargets_removeDirEvent _ _ _ _)

theorem cleanup_RT {w : W} {acc : List PyPath} (d : PyPath)
    (h : List.Sublist (removalTargets w.trace) acc) :
    List.Sublist (removalTargets (dataDirCleanup w d).trace) (acc ++ [d]) := by
  rw [dataDirCleanup_trace, removalTargets_append]
  exact List.Sublist.append h (removalTargets_cleanupEvents _ _ _)

theorem emit_RT {w : W} {acc : List PyPath} (e : Event)
    (he : removalTargets [e] = []) (h : List.Sublist (removalTargets w.trace) acc) :
    List.Sublist (removalTargets (emit w e).trace) acc := by
  rw [emit_trace, removalTargets_append, he, List.append_nil]
  exact h

theorem resetDevRemovals_RT {w : W} {acc : List PyPath} (d : PyPath)
    (h : List.Sublist (removalTargets w.trace) acc) :
    List.Sublist (removalTargets (resetDevRemovals d w).trace)
      (acc ++ [d.child "au-archive.db", d.child "au-archive.db-wal",
               d.child "au-archive.db-shm", d.child "config.json", d.child "backups"]) := by
  unfold resetDevRemovals
  have h1 := emit_RT (.print "Removing development files...") rfl h
  have h2 := rf_RT (d.child "au-archive.db") "Dev database" h1
  have h3 := rf_RT (d.child "au-archive.db-wal") "Dev database -wal file" h2
  have h4 := rf_RT (d.child "au-archive.db-shm") "Dev database -shm file" h3
  have h5 := rf_RT (d.child "config.json") "Dev config" h4
  have h6 := rd_RT (d.child "backups") "Dev backups directory" h5
  simpa [List.append_assoc] using h6

theorem resetArchiveRemovals_RT {w : W} {acc : List PyPath} (a : String)
    (h : List.Sublist (removalTargets w.trace) acc) :
    List.Sublist (removalTargets (resetArchiveRemovals a w).trace)
      (acc ++ [(pathOfString a).child ".thumbnails", (pathOfString a).child ".previews",
               (pathOfString a).child ".posters"]) := by
  unfold resetArchiveRemovals
  have h1 := emit_RT (.print "Removing archive support files...") rfl h
  have h2 := rd_RT ((pathOfString a).child ".thumbnails") "Thumbnails directory" h1
  have h3 := rd_RT ((pathOfString a).child ".previews") "Previews directory" h2
  have h4 := rd_RT ((pathOfString a).child ".posters") "Posters directory" h3
  simpa [List.append_assoc] using h4

theorem removalTargets_eq_nil_of_no_attempts (t : List Event)
    (hall : t.all (fun e => !isAttemptEvent e) = true) : removalTargets t = [] := by
  induction t with
  | nil => rfl
  | cons e rest ih =>
    simp only [List.all_cons, Bool.and_eq_true] at hall
    cases e <;> simp_all [removalTargets, isAttemptEvent]

theorem resetPlanPrints_RT {w : W} {acc : List PyPath} (env : Env) (dev : Option PyPath)
    (archive : Option String) (h : List.Sublist (removalTargets w.trace) acc) :
    List.Sublist (removalTargets (resetPlanPrints env dev archive w).trace) acc := by
  obtain ⟨t, ht, hall⟩ := resetPlanPrints_trace env dev archive w
  have hall2 : t.all (fun e => !isAttemptEvent e) = true := by
    rw [List.all_eq_true] at hall ⊢
    intro e he
    exact (Bool.and_eq_true _ _ |>.mp (hall e he)).1
  rw [ht, removalTargets_append, removalTargets_eq_nil_of_no_attempts t hall2,
    List.append_nil]
  exact h

theorem resetJournal_RT {w : W} {acc : List PyPath} (env : Env)
    (h : List.Sublist (removalTargets w.trace) acc) :
    List.Sublist (removalTargets (resetJournal env w).trace)
      (acc ++ [sidecar (get_default_db_path env) "-wal",
               sidecar (get_default_db_path env) "-shm",
               (get_config_dir env).child "data"]) := by
  unfold resetJournal
  have h1 := rf_RT (sidecar (get_default_db_path env) "-wal") "Database -wal file" h
  have h2 := rf_RT (sidecar (get_default_db_path env) "-shm") "Database -shm file" h1
  have h3 := cleanup_RT ((get_config_dir env).child "data") h2
  simpa [List.append_assoc] using h3

theorem resetFinish_RT {w : W} {acc : List PyPath} (env : Env) (dev : Option PyPath)
    (archive : Option String) (h : List.Sublist (removalTargets w.trace) acc) :
    List.Sublist (removalTargets (resetFinish env dev archive w).trace)
      (acc ++ (get_config_dir env).child "backups" :: (devSeg dev ++ archSeg archive)) := by
  unfold resetFinish
  have h1 := rd_RT ((get_config_dir env).child "backups") "Backups directory" h
  cases dev with
  | none =>
    cases archive with
    | none =>
      have h2 := emit_RT (.print "Reset complete!") rfl h1
      simpa [devSeg, archSeg, List.append_assoc] using h2
    | some a =>
      have h2 := resetArchiveRemovals_RT a h1
      have h3 := emit_RT (.print "Reset complete!") rfl h2
      simpa [devSeg, archSeg, List.append_assoc] using h3
  | some d =>
    cases archive with
    | none =>
      have h2 := resetDevRemovals_RT d h1
      have h3 := emit_RT (.print "Reset complete!") rfl h2
      simpa [devSeg, archSeg, List.append_assoc] using h3
    | some a =>
      have h2 := resetDevRemovals_RT d h1
      have h3 := resetArchiveRemovals_RT a h2
      have h4 := emit_RT (.print "Reset complete!") rfl h3
      simpa [devSeg, archSeg, List.append_assoc] using h4

/-- In any full reset that proceeds to removals, the successful removals
form a sublist of the canonical order. -/
theorem resetRemovals_RT (env : Env) (dev : Option PyPath) (archive : Option String)
    (w : W) (acc : List PyPath) (h : List.Sublist (removalTargets w.trace) acc) :
    List.Sublist (removalTargets (resetRemovals env dev archive w).trace)
      (acc ++ fullResetOrder env dev archive) := by
  have h1 := emit_RT (.print "Removing files...") rfl h
  have h2 := rf_RT (get_default_db_path env) "Database" h1
  have h3 := rf_RT (get_bootstrap_config_path env) "Config" h2
  unfold resetRemovals
  dsimp only
  split
  · have h4 := resetJournal_RT env h3
    have h5 := resetFinish_RT env dev archive h4
    simpa [fullResetOrder, List.append_assoc] using h5
  · have h4 := sublist_grow [sidecar (get_default_db_path env) "-wal",
      sidecar (get_default_db_path env) "-shm", (get_config_dir env).child "data"] h3
    have h5 := resetFinish_RT env dev archive h4
    simpa [fullResetOrder, List.append_assoc] using h5

/-- C1. In a confirmed (or force-mode) full reset, the removals executed
are, in order: database file, config file, WAL then SHM sidecar, data
directory (only if empty at that point), backups directory, the
dev-mode equivalents (when a dev data directory was detected), and the
three archive subdirectories (when an archive root was supplied) — the
successful removals of any such run form a sublist of exactly that
canonical order. -/
theorem full_reset_removal_order (env : Env) (archive : Option String) (fs : FS)
    (faults : List Bool) (force : Bool) (response : String)
    (h : force = true ∨ isAffirmative response = true) :
    List.Sublist
      (removalTargets (reset_database env archive force response (initW fs faults)).trace)
      (fullResetOrder env (get_dev_data_dir fs env.cwd) archive) := by
  have hcond : (force || isAffirmative response) = true := by
    rcases h with h | h <;> simp [h]
  have h0 : List.Sublist (removalTargets (initW fs faults).trace) [] := by
    simp [initW, removalTargets]
  have h1 := emit_RT (.print "=== AU Archive Reset Script ===") rfl h0
  have h2 := resetPlanPrints_RT env (get_dev_data_dir fs env.cwd) archive h1
  have h3 := resetRemovals_RT env (get_dev_data_dir fs env.cwd) archive _ [] h2
  unfold reset_database
  dsimp only [initW, emit_fs]
  rw [hcond]
  simpa [initW] using h3

/-- Witness for `full_reset_removal_order` at a concrete run: Linux
environment, a populated fixture, confirmation answered `y`. -/
theorem full_reset_removal_order_witness :
    List.Sublist
      (removalTargets (reset_database ⟨"Linux", ⟨true, ["home", "u"]⟩, none, ⟨true, ["w"]⟩⟩
        (some "/arch") false "y"
        (initW ⟨[⟨true, ["home", "u", ".config", "@au-archive", "desktop", "data",
                         "au-archive.db"]⟩], []⟩ [])).trace)
      (fullResetOrder ⟨"Linux", ⟨true, ["home", "u"]⟩, none, ⟨true, ["w"]⟩⟩
        (get_dev_data_dir ⟨[⟨true, ["home", "u", ".config", "@au-archive", "desktop", "data",
                                    "au-archive.db"]⟩], []⟩ ⟨true, ["w"]⟩)
        (some "/arch")) :=
  full_reset_removal_order _ (some "/arch") _ [] false "y" (Or.inr (by decide))

/-- C6. On a non-existent path, `remove_file` and `remove_dir` report
"not found", return `false`, change no state, consume no fault tick
(no OS call is made, so no exception can arise), and are therefore
no-ops — in particular idempotent. -/
theorem remove_primitives_absent_noop (w : W) (p : PyPath) (n : String)
    (h : pathExists w.fs p = false) :
    remove_file w p n = (⟨w.fs, w.faults, w.trace ++ [.notFound n p]⟩, false) ∧
    remove_dir w p n = (⟨w.fs, w.faults, w.trace ++ [.notFound n p]⟩, false) := by
  rcases w with ⟨fs, faults, trace⟩
  constructor <;> simp [remove_file, remove_dir, emit, h]

/-- Witness for `remove_primitives_absent_noop`: removing a path from an
empty filesystem. -/
theorem remove_primitives_absent_noop_witness :
    remove_file ⟨⟨[], []⟩, [], []⟩ ⟨true, ["x"]⟩ "Database" =
      (⟨⟨[], []⟩, [], [Event.notFound "Database" ⟨true, ["x"]⟩]⟩, false) ∧
    remove_dir ⟨⟨[], []⟩, [], []⟩ ⟨true, ["x"]⟩ "Database" =
      (⟨⟨[], []⟩, [], [Event.notFound "Database" ⟨true, ["x"]⟩]⟩, false) := by
  have h := remove_primitives_absent_noop ⟨⟨[], []⟩, [], []⟩ ⟨true, ["x"]⟩ "Database"
    (by decide)
  simpa using h

/-- C7. For every platform identity, `get_config_dir` is exactly the
platform-appropriate base directory of the specification with the fixed
application namespace `@au-archive/desktop` appended, so its parts end
in that namespace. -/
theorem get_config_dir_platform (env : Env) :
    get_config_dir env = ((specConfigBase env).child "@au-archive").child "desktop" ∧
    List.isSuffixOf ["@au-archive", "desktop"] (get_config_dir env).parts = true := by
  have heq : get_config_dir env = ((specConfigBase env).child "@au-archive").child "desktop" := by
    by_cases h1 : env.system == "Windows"
    · simp [get_config_dir, specConfigBase, h1]
    · by_cases h2 : env.system == "Darwin" <;>
        simp [get_config_dir, specConfigBase, h1, h2]
  refine ⟨heq, ?_⟩
  rw [heq, List.isSuffixOf_iff_suffix]
  have : (((specConfigBase env).child "@au-archive").child "desktop").parts =
      (specConfigBase env).parts ++ ["@au-archive", "desktop"] := by
    simp [PyPath.child]
  rw [this]
  exact List.suffix_append _ _

/-- C8 counterexample. On Windows with the roaming-app-data variable
unset (or set to the empty string), `get_config_dir` returns a
*relative* path, refuting the claim that every removal-target path is
absolute. -/
theorem get_config_dir_windows_relative_cex :
    (get_config_dir ⟨"Windows", ⟨true, ["C:", "Users", "u"]⟩, none, ⟨true, ["w"]⟩⟩).absolute
        = false ∧
    (get_config_dir ⟨"Windows", ⟨true, ["C:", "Users", "u"]⟩, some "", ⟨true, ["w"]⟩⟩).absolute
        = false := by
  decide

/-- C8 amended. On Windows, `get_config_dir` is absolute exactly when
the roaming-app-data value parses as an absolute Windows path; with the
variable unset or empty it is relative, so no absoluteness invariant
holds. -/
theorem get_config_dir_windows_absolute_iff (env : Env) (h : env.system = "Windows") :
    (get_config_dir env).absolute = isAbsoluteWin (env.appdata.getD "") := by
  by_cases hs : env.appdata.getD "" == ""
  · have : env.appdata.getD "" = "" := by simpa using hs
    simp [get_config_dir, h, windowsPathOfString, PyPath.child, this]
    decide
  · simp [get_config_dir, h, windowsPathOfString, PyPath.child, hs]

/-- Witness for `get_config_dir_windows_absolute_iff` at a concrete
drive-rooted value. -/
theorem get_config_dir_windows_absolute_iff_witness :
    (get_config_dir ⟨"Windows", ⟨true, ["C:", "Users", "u"]⟩,
      some "C:\\Users\\u\\AppData\\Roaming", ⟨true, ["w"]⟩⟩).absolute =
      isAbsoluteWin ((some "C:\\Users\\u\\AppData\\Roaming").getD "") :=
  get_config_dir_windows_absolute_iff _ rfl

/-! ### Trace-prefix lemmas: every block only appends to the trace -/

theorem trace_prefix_rf (w : W) (p : PyPath) (n : String) :
    w.trace <+: ((remove_file w p n).1).trace :=
  ⟨[removeFileEvent w.fs w.faults p n], (remove_file_trace w p n).symm⟩

theorem trace_prefix_rd (w : W) (p : PyPath) (n : String) :
    w.trace <+: ((remove_dir w p n).1).trace :=
  ⟨[removeDirEvent w.fs w.faults p n], (remove_dir_trace w p n).symm⟩

theorem trace_prefix_cleanup (w : W) (d : PyPath) :
    w.trace <+: (dataDirCleanup w d).trace :=
  ⟨cleanupEvents w.fs w.faults d, (dataDirCleanup_trace w d).symm⟩

theorem trace_prefix_emit (w : W) (e : Event) : w.trace <+: (emit w e).trace :=
  ⟨[e], rfl⟩

theorem trace_prefix_resetDevRemovals (d : PyPath) (w : W) :
    w.trace <+: (resetDevRemovals d w).trace := by
  unfold resetDevRemovals
  dsimp only
  exact ((((((trace_prefix_emit _ _).trans (trace_prefix_rf _ _ _)).trans
    (trace_prefix_rf _ _ _)).trans (trace_prefix_rf _ _ _)).trans
    (trace_prefix_rf _ _ _)).trans (trace_prefix_rd _ _ _))

theorem trace_prefix_resetArchiveRemovals (a : String) (w : W) :
    w.trace <+: (resetArchiveRemovals a w).trace := by
  unfold resetArchiveRemovals
  dsimp only
  exact ((((trace_prefix_emit _ _).trans (trace_prefix_rd _ _ _)).trans
    (trace_prefix_rd _ _ _)).trans (trace_prefix_rd _ _ _))

/-- After the backups step, the rest of `resetFinish` only appends, so
the backups directory is always among the attempted targets. -/
theorem backups_attempt_in_resetFinish (env : Env) (dev : Option PyPath)
    (archive : Option String) (w : W) :
    (get_config_dir env).child "backups" ∈
      attemptTargets (resetFinish env dev archive w).trace := by
  unfold resetFinish
  dsimp only
  cases dev with
  | none =>
    cases archive with
    | none =>
      simp only [emit_trace, remove_dir_trace, List.append_assoc, attemptTargets_append,
        attemptTargets_removeDirEvent, List.mem_append]
      simp
    | some a =>
      obtain ⟨t, ht⟩ := trace_prefix_resetArchiveRemovals a
        ((remove_dir w ((get_config_dir env).child "backups") "Backups directory").1)
      simp only [emit_trace, ← ht, remove_dir_trace, List.append_assoc,
        attemptTargets_append, attemptTargets_removeDirEvent, List.mem_append]
      simp
  | some d =>
    cases archive with
    | none =>
      obtain ⟨t, ht⟩ := trace_prefix_resetDevRemovals d
        ((remove_dir w ((get_config_dir env).child "backups") "Backups directory").1)
      simp only [emit_trace, ← ht, remove_dir_trace, List.append_assoc,
        attemptTargets_append, attemptTargets_removeDirEvent, List.mem_append]
      simp
    | some a =>
      obtain ⟨t, ht⟩ := trace_prefix_resetDevRemovals d
        ((remove_dir w ((get_config_dir env).child "backups") "Backups directory").1)
      obtain ⟨t2, ht2⟩ := trace_prefix_resetArchiveRemovals a
        (resetDevRemovals d
          ((remove_dir w ((get_config_dir env).child "backups") "Backups directory").1))
      simp only [emit_trace, ← ht2, ← ht, remove_dir_trace, List.append_assoc,
        attemptTargets_append, attemptTargets_removeDirEvent, List.mem_append]
      simp

/-- C5 counterexample. A run in which the data-directory `rmdir` fails
(the single fault tick is consumed by it — `faults` ends empty), yet no
failure is reported anywhere in the trace and the empty data directory
is left in place: the data-directory removal step's failure is silently
swallowed, refuting "every removal failure ... is reported to the
user". -/
theorem data_dir_failure_unreported_cex :
    (reset_database ⟨"Linux", ⟨true, ["h"]⟩, none, ⟨true, ["w"]⟩⟩ none true ""
        (initW ⟨[], [⟨true, ["h", ".config", "@au-archive", "desktop", "data"]⟩]⟩
          [true])).faults = [] ∧
    ((reset_database ⟨"Linux", ⟨true, ["h"]⟩, none, ⟨true, ["w"]⟩⟩ none true ""
        (initW ⟨[], [⟨true, ["h", ".config", "@au-archive", "desktop", "data"]⟩]⟩
          [true])).trace.all (fun e =>
            match e with
            | .removeFailed _ _ _ => false
            | _ => true)) = true ∧
    dirEmpty ⟨[], [⟨true, ["h", ".config", "@au-archive", "desktop", "data"]⟩]⟩
      ⟨true, ["h", ".config", "@au-archive", "desktop", "data"]⟩ = true ∧
    pathExists (reset_database ⟨"Linux", ⟨true, ["h"]⟩, none, ⟨true, ["w"]⟩⟩ none true ""
        (initW ⟨[], [⟨true, ["h", ".config", "@au-archive", "desktop", "data"]⟩]⟩
          [true])).fs
      ⟨true, ["h", ".config", "@au-archive", "desktop", "data"]⟩ = true := by
  decide

/-- C5 amended. Failures of `remove_file` and `remove_dir` are caught at
the operation, reported with the underlying error message, leave the
filesystem unchanged, and return `false` instead of propagating; a
failure of the data-directory `rmdir` is caught but silently ignored
(nothing is reported); and no failure aborts the run — the subsequent
backups target is always attempted in the full-reset removal
sequence, whatever the fault oracle. -/
theorem removal_failures_caught_nonfatal :
    (∀ w p n, w.faults.headD false = true → pathExists w.fs p = true →
      remove_file w p n = (⟨w.fs, w.faults.tail, w.trace ++ [.removeFailed n p osErrMsg]⟩,
        false)) ∧
    (∀ w p n, w.faults.headD false = true → pathExists w.fs p = true →
      remove_dir w p n = (⟨w.fs, w.faults.tail, w.trace ++ [.removeFailed n p osErrMsg]⟩,
        false)) ∧
    (∀ w d, w.faults.headD false = true → dirEmpty w.fs d = true →
      dataDirCleanup w d = { w with faults := w.faults.tail }) ∧
    (∀ env dev archive w, (get_config_dir env).child "backups" ∈
      attemptTargets (resetRemovals env dev archive w).trace) := by
  refine ⟨?_, ?_, ?_, ?_⟩
  · rintro ⟨fs, faults, trace⟩ p n hf hx
    cases faults with
    | nil => simp at hf
    | cons b rest =>
      simp only [List.headD_cons] at hf
      simp [remove_file, popFault, hx, hf, emit]
  · rintro ⟨fs, faults, trace⟩ p n hf hx
    cases faults with
    | nil => simp at hf
    | cons b rest =>
      simp only [List.headD_cons] at hf
      simp [remove_dir, popFault, hx, hf, emit]
  · rintro ⟨fs, faults, trace⟩ d hf he
    cases faults with
    | nil => simp at hf
    | cons b rest =>
      simp only [List.headD_cons] at hf
      simp [dataDirCleanup, popFault, he, hf]
  · intro env dev archive w
    unfold resetRemovals
    dsimp only
    exact backups_attempt_in_resetFinish env dev archive _

/-- Witness for `removal_failures_caught_nonfatal`: a faulting
`remove_file` on an existing file reports the failure and leaves the
file in place. -/
theorem removal_failures_caught_nonfatal_witness :
    remove_file ⟨⟨[⟨true, ["x"]⟩], []⟩, [true], []⟩ ⟨true, ["x"]⟩ "Database" =
      (⟨⟨[⟨true, ["x"]⟩], []⟩, [], [.removeFailed "Database" ⟨true, ["x"]⟩ osErrMsg]⟩,
        false) := by
  have h := removal_failures_caught_nonfatal.1 ⟨⟨[⟨true, ["x"]⟩], []⟩, [true], []⟩
    ⟨true, ["x"]⟩ "Database" (by decide) (by decide)
  simpa using h

theorem all_and_left {t : List Event} {f g : Event → Bool}
    (hall : t.all (fun e => f e && g e) = true) : t.all f = true := by
  rw [List.all_eq_true] at hall ⊢
  intro e he
  exact (Bool.and_eq_true _ _ |>.mp (hall e he)).1

theorem all_and_right {t : List Event} {f g : Event → Bool}
    (hall : t.all (fun e => f e && g e) = true) : t.all g = true := by
  rw [List.all_eq_true] at hall ⊢
  intro e he
  exact (Bool.and_eq_true _ _ |>.mp (hall e he)).2

/-- Shared helper: a declined run leaves the filesystem untouched and
its trace holds only prints and plan lines. -/
theorem declined_no_mutation (env : Env) (archive : Option String)
    (dbOnly : Bool) (fs : FS) (faults : List Bool) (response : String)
    (h : isAffirmative response = false) :
    (main env archive false dbOnly response (initW fs faults)).fs = fs ∧
    (main env archive false dbOnly response (initW fs faults)).trace.all
      (fun e => !isAttemptEvent e) = true := by
  cases dbOnly with
  | true =>
    rw [show main env archive false true response (initW fs faults) =
      mainDbOnly env false response (initW fs faults) from rfl]
    unfold mainDbOnly
    dsimp only
    rcases hdev : get_dev_data_dir (emit (initW fs faults)
        (.print "=== AU Archive Reset Script (DB Only) ===")).fs env.cwd with _ | d <;>
      simp [initW, emit, h, hdev, isAttemptEvent]
  | false =>
    rw [show main env archive false false response (initW fs faults) =
      reset_database env archive false response (initW fs faults) from rfl]
    have hcond : (false || isAffirmative response) = false := by simp [h]
    unfold reset_database
    dsimp only
    rw [hcond]
    simp only [Bool.false_eq_true, if_false]
    obtain ⟨t, ht, hall⟩ := resetPlanPrints_trace env
      (get_dev_data_dir (emit (initW fs faults)
        (.print "=== AU Archive Reset Script ===")).fs env.cwd)
      archive (emit (initW fs faults) (.print "=== AU Archive Reset Script ==="))
    constructor
    · simp [emit_fs, resetPlanPrints_fs, initW]
    · rw [emit_trace, ht, emit_trace]
      have h1 := List.all_eq_true.mp (all_and_left hall)
      simp only [initW, List.nil_append, List.all_append, List.all_cons, List.all_nil,
        Bool.and_eq_true, List.all_eq_true]
      refine ⟨⟨by decide, ?_⟩, by decide⟩
      intro x hx
      simpa using h1 x hx

/-- C3. In either mode, without force-mode, a non-affirmative
confirmation response aborts the run with the filesystem untouched and
with no removal of any kind attempted (the trace holds only prints and
plan lines). -/
theorem decline_confirmation_no_mutation (env : Env) (archive : Option String)
    (dbOnly : Bool) (fs : FS) (faults : List Bool) (response : String)
    (h : isAffirmative response = false) :
    (main env archive false dbOnly response (initW fs faults)).fs = fs ∧
    (main env archive false dbOnly response (initW fs faults)).trace.all
      (fun e => !isAttemptEvent e) = true :=
  declined_no_mutation env archive dbOnly fs faults response h

/-- Witness for `decline_confirmation_no_mutation`: declining with "n"
leaves a populated fixture untouched. -/
theorem decline_confirmation_no_mutation_witness :
    (main ⟨"Linux", ⟨true, ["h"]⟩, none, ⟨true, ["w"]⟩⟩ none false false "n"
      (initW ⟨[⟨true, ["h", "f"]⟩], [⟨true, ["h", "d"]⟩]⟩ [])).fs =
        ⟨[⟨true, ["h", "f"]⟩], [⟨true, ["h", "d"]⟩]⟩ ∧
    (main ⟨"Linux", ⟨true, ["h"]⟩, none, ⟨true, ["w"]⟩⟩ none false false "n"
      (initW ⟨[⟨true, ["h", "f"]⟩], [⟨true, ["h", "d"]⟩]⟩ [])).trace.all
        (fun e => !isAttemptEvent e) = true :=
  decline_confirmation_no_mutation _ none false _ [] "n" (by decide)

/-! ### No step of a proceeding run ever prints the abort line -/

theorem na_emit {w : W} (e : Event) (he : notAborted e = true)
    (h : w.trace.all notAborted = true) : (emit w e).trace.all notAborted = true := by
  simp [emit_trace, List.all_append, h, he]

theorem na_rf {w : W} (p : PyPath) (n : String)
    (h : w.trace.all notAborted = true) :
    ((remove_file w p n).1).trace.all notAborted = true := by
  rw [remove_file_trace]
  simp [List.all_append, h, removeFileEvent_notAborted]

theorem na_rd {w : W} (p : PyPath) (n : String)
    (h : w.trace.all notAborted = true) :
    ((remove_dir w p n).1).trace.all notAborted = true := by
  rw [remove_dir_trace]
  simp [List.all_append, h, removeDirEvent_notAborted]

theorem na_cleanup {w : W} (d : PyPath)
    (h : w.trace.all notAborted = true) :
    (dataDirCleanup w d).trace.all notAborted = true := by
  rw [dataDirCleanup_trace]
  simp [List.all_append, h, cleanupEvents_notAborted]

theorem na_resetDevRemovals {w : W} (d : PyPath)
    (h : w.trace.all notAborted = true) :
    (resetDevRemovals d w).trace.all notAborted = true := by
  unfold resetDevRemovals
  dsimp only
  exact na_rd _ _ (na_rf _ _ (na_rf _ _ (na_rf _ _ (na_rf _ _
    (na_emit _ (by decide) h)))))

theorem na_resetArchiveRemovals {w : W} (a : String)
    (h : w.trace.all notAborted = true) :
    (resetArchiveRemovals a w).trace.all notAborted = true := by
  unfold resetArchiveRemovals
  dsimp only
  exact na_rd _ _ (na_rd _ _ (na_rd _ _ (na_emit _ (by decide) h)))

theorem na_resetJournal {w : W} (env : Env)
    (h : w.trace.all notAborted = true) :
    (resetJournal env w).trace.all notAborted = true := by
  unfold resetJournal
  dsimp only
  exact na_cleanup _ (na_rf _ _ (na_rf _ _ h))

theorem na_resetFinish {w : W} (env : Env) (dev : Option PyPath) (archive : Option String)
    (h : w.trace.all notAborted = true) :
    (resetFinish env dev archive w).trace.all notAborted = true := by
  unfold resetFinish
  dsimp only
  cases dev with
  | none =>
    cases archive with
    | none => exact na_emit _ (by decide) (na_rd _ _ h)
    | some a => exact na_emit _ (by decide) (na_resetArchiveRemovals a (na_rd _ _ h))
  | some d =>
    cases archive with
    | none => exact na_emit _ (by decide) (na_resetDevRemovals d (na_rd _ _ h))
    | some a =>
      exact na_emit _ (by decide)
        (na_resetArchiveRemovals a (na_resetDevRemovals d (na_rd _ _ h)))

theorem na_resetRemovals {w : W} (env : Env) (dev : Option PyPath) (archive : Option String)
    (h : w.trace.all notAborted = true) :
    (resetRemovals env dev archive w).trace.all notAborted = true := by
  unfold resetRemovals
  dsimp only
  split
  · exact na_resetFinish env dev archive
      (na_resetJournal env (na_rf _ _ (na_rf _ _ (na_emit _ (by decide) h))))
  · exact na_resetFinish env dev archive
      (na_rf _ _ (na_rf _ _ (na_emit _ (by decide) h)))

theorem na_resetPlanPrints {w : W} (env : Env) (dev : Option PyPath)
    (archive : Option String) (h : w.trace.all notAborted = true) :
    (resetPlanPrints env dev archive w).trace.all notAborted = true := by
  obtain ⟨t, ht, hall⟩ := resetPlanPrints_trace env dev archive w
  rw [ht]
  simp [List.all_append, h, all_and_right hall]

theorem na_rf_if {w : W} (c : Prop) [Decidable c] (p : PyPath) (n : String)
    (h : w.trace.all notAborted = true) :
    (if c then (remove_file w p n).1 else w).trace.all notAborted = true := by
  split
  · exact na_rf p n h
  · exact h

theorem na_dbOnlyRemovals {w : W} (env : Env) (dev : Option PyPath)
    (h : w.trace.all notAborted = true) :
    (dbOnlyRemovals env dev w).trace.all notAborted = true := by
  have hdev : ∀ w2 : W, w2.trace.all notAborted = true →
      (emit (match dev with
        | some d =>
          (remove_file ((remove_file ((remove_file
            (emit w2 (.print "Removing dev database...")) (d.child "au-archive.db")
              "Dev database").1) (d.child "au-archive.db-wal") "Dev database -wal file").1)
            (d.child "au-archive.db-shm") "Dev database -shm file").1
        | none => w2) (Event.print "Done!")).trace.all notAborted = true := by
    intro w2 h2
    cases dev with
    | none => exact na_emit (Event.print "Done!") (by decide) h2
    | some d =>
      exact na_emit (Event.print "Done!") (by decide) (na_rf _ _ (na_rf _ _ (na_rf _ _
        (na_emit (Event.print "Removing dev database...") (by decide) h2))))
  have h1 := na_rf (get_default_db_path env) "Database"
    (na_emit (Event.print "Removing database...") (by decide) h)
  unfold dbOnlyRemovals
  dsimp only
  exact hdev _ (na_rf_if _ _ _ (na_rf_if _ _ _ h1))

theorem abort_not_mem_of_all_notAborted {l : List Event}
    (h : l.all notAborted = true) : Event.print "Aborted." ∉ l := by
  intro hmem
  have := List.all_eq_true.mp h _ hmem
  simp [notAborted] at this

/-- A declined run's trace ends in the `Aborted.` line. -/
theorem declined_aborted_mem (env : Env) (archive : Option String)
    (dbOnly : Bool) (fs : FS) (faults : List Bool) (response : String)
    (h : isAffirmative response = false) :
    Event.print "Aborted." ∈ (main env archive false dbOnly response (initW fs faults)).trace := by
  cases dbOnly with
  | true =>
    rw [show main env archive false true response (initW fs faults) =
      mainDbOnly env false response (initW fs faults) from rfl]
    unfold mainDbOnly
    dsimp only
    rcases hdev : get_dev_data_dir (emit (initW fs faults)
        (.print "=== AU Archive Reset Script (DB Only) ===")).fs env.cwd with _ | d <;>
      simp [initW, emit, h, hdev]
  | false =>
    rw [show main env archive false false response (initW fs faults) =
      reset_database env archive false response (initW fs faults) from rfl]
    have hcond : (false || isAffirmative response) = false := by simp [h]
    unfold reset_database
    dsimp only
    rw [hcond]
    simp only [Bool.false_eq_true, if_false]
    simp [emit_trace]

/-- A confirmed (or forced) run never prints the `Aborted.` line. -/
theorem confirmed_no_aborted_mem (env : Env) (archive : Option String)
    (dbOnly force : Bool) (fs : FS) (faults : List Bool) (response : String)
    (h : force = true ∨ isAffirmative response = true) :
    Event.print "Aborted." ∉ (main env archive force dbOnly response (initW fs faults)).trace := by
  cases dbOnly with
  | true =>
    rw [show main env archive force true response (initW fs faults) =
      mainDbOnly env force response (initW fs faults) from rfl]
    unfold mainDbOnly
    dsimp only
    cases hf : force with
    | false =>
      have haff : isAffirmative response = true := by
        rcases h with h | h
        · rw [hf] at h; cases h
        · exact h
      simp only [Bool.not_false, eq_self_iff_true, if_true]
      rcases hdev : get_dev_data_dir (emit (initW fs faults)
          (.print "=== AU Archive Reset Script (DB Only) ===")).fs env.cwd with _ | d <;>
      · dsimp only
        rw [haff]
        simp only [eq_self_iff_true, if_true]
        refine abort_not_mem_of_all_notAborted (na_dbOnlyRemovals env _ ?_)
        simp [initW, emit, notAborted]
    | true =>
      simp only [Bool.not_true, Bool.false_eq_true, if_false]
      refine abort_not_mem_of_all_notAborted (na_dbOnlyRemovals env _ ?_)
      simp [initW, emit, notAborted]
  | false =>
    rw [show main env archive force false response (initW fs faults) =
      reset_database env archive force response (initW fs faults) from rfl]
    have hcond : (force || isAffirmative response) = true := by
      rcases h with h | h <;> simp [h]
    unfold reset_database
    dsimp only
    rw [hcond]
    simp only [if_pos rfl]
    refine abort_not_mem_of_all_notAborted (na_resetRemovals env _ archive ?_)
    refine na_resetPlanPrints env _ archive ?_
    simp [initW, emit, notAborted]

theorem isAffirmative_iff (r : String) :
    isAffirmative r = true ↔ (pyLower (pyStrip r) = "y" ∨ pyLower (pyStrip r) = "yes") := by
  simp [isAffirmative]

/-- C10. The confirmation responses treated as affirmative are exactly
those whose strip-and-lowercase normal form is `y` or `yes`: in both
modes (without force), the run prints `Aborted.` precisely when the
normalized response is neither, and in that case it removes nothing and
leaves the filesystem unchanged. -/
theorem confirmation_affirmative_set (env : Env) (archive : Option String) (dbOnly : Bool)
    (fs : FS) (faults : List Bool) (r : String) :
    ((Event.print "Aborted.") ∈ (main env archive false dbOnly r (initW fs faults)).trace ↔
      ¬(pyLower (pyStrip r) = "y" ∨ pyLower (pyStrip r) = "yes")) ∧
    (¬(pyLower (pyStrip r) = "y" ∨ pyLower (pyStrip r) = "yes") →
      (main env archive false dbOnly r (initW fs faults)).fs = fs ∧
      (main env archive false dbOnly r (initW fs faults)).trace.all
        (fun e => !isAttemptEvent e) = true) := by
  by_cases haff : isAffirmative r = true
  · have hy := (isAffirmative_iff r).mp haff
    refine ⟨⟨?_, ?_⟩, ?_⟩
    · intro hmem
      exact absurd hmem
        (confirmed_no_aborted_mem env archive dbOnly false fs faults r (Or.inr haff))
    · intro hn
      exact absurd hy hn
    · intro hn
      exact absurd hy hn
  · have hfalse : isAffirmative r = false := by simpa using haff
    have hny : ¬(pyLower (pyStrip r) = "y" ∨ pyLower (pyStrip r) = "yes") := fun hy =>
      haff ((isAffirmative_iff r).mpr hy)
    refine ⟨⟨?_, ?_⟩, ?_⟩
    · intro _
      exact hny
    · intro _
      exact declined_aborted_mem env archive dbOnly fs faults r hfalse
    · intro _
      exact declined_no_mutation env archive dbOnly fs faults r hfalse

/-- Witness for `confirmation_affirmative_set` at the declined response
`"n"` on a concrete fixture. -/
theorem confirmation_affirmative_set_witness :
    ((Event.print "Aborted.") ∈ (main ⟨"Linux", ⟨true, ["h"]⟩, none, ⟨true, ["w"]⟩⟩ none
        false false "n" (initW ⟨[⟨true, ["h", "f"]⟩], []⟩ [])).trace ↔
      ¬(pyLower (pyStrip "n") = "y" ∨ pyLower (pyStrip "n") = "yes")) ∧
    (¬(pyLower (pyStrip "n") = "y" ∨ pyLower (pyStrip "n") = "yes") →
      (main ⟨"Linux", ⟨true, ["h"]⟩, none, ⟨true, ["w"]⟩⟩ none false false "n"
        (initW ⟨[⟨true, ["h", "f"]⟩], []⟩ [])).fs = ⟨[⟨true, ["h", "f"]⟩], []⟩ ∧
      (main ⟨"Linux", ⟨true, ["h"]⟩, none, ⟨true, ["w"]⟩⟩ none false false "n"
        (initW ⟨[⟨true, ["h", "f"]⟩], []⟩ [])).trace.all
          (fun e => !isAttemptEvent e) = true) :=
  confirmation_affirmative_set _ none false _ [] "n"

/-! ### An invariant preserved by every step of the db-only flow -/

/-- Any property preserved by prints and by `remove_file` on the allowed
db-only targets holds after the db-only removal sequence. -/
theorem dbOnly_invariant (env : Env) (dev : Option PyPath) (P : W → Prop)
    (hemit : ∀ w s, P w → P (emit w (.print s)))
    (hrf : ∀ w p n, p ∈ dbOnlyAllowed env dev → P w → P ((remove_file w p n).1)) :
    ∀ w, P w → P (dbOnlyRemovals env dev w) := by
  intro w hw
  have hif : ∀ (w2 : W) (p : PyPath) (n : String),
      p ∈ dbOnlyAllowed env dev → P w2 →
      P (if pathExists w2.fs p = true then (remove_file w2 p n).1 else w2) := by
    intro w2 p n hp h2
    split
    · exact hrf w2 p n hp h2
    · exact h2
  have h1 := hrf _ (get_default_db_path env) "Database"
    (by simp [dbOnlyAllowed]) (hemit _ "Removing database..." hw)
  have h2 := hif _ (sidecar (get_default_db_path env) "-wal") "Database -wal file"
    (by simp [dbOnlyAllowed]) h1
  have h3 := hif _ (sidecar (get_default_db_path env) "-shm") "Database -shm file"
    (by simp [dbOnlyAllowed]) h2
  unfold dbOnlyRemovals
  dsimp only
  cases dev with
  | none => exact hemit _ "Done!" h3
  | some d =>
    exact hemit _ "Done!" (hrf _ (d.child "au-archive.db-shm") "Dev database -shm file"
      (by simp [dbOnlyAllowed]) (hrf _ (d.child "au-archive.db-wal")
        "Dev database -wal file" (by simp [dbOnlyAllowed])
        (hrf _ (d.child "au-archive.db") "Dev database" (by simp [dbOnlyAllowed])
          (hemit _ "Removing dev database..." h3))))

/-- Any property preserved by prints, plan lines and by `remove_file` on
the allowed db-only targets holds after any `--db-only` run. -/
theorem mainDbOnly_invariant (env : Env) (force : Bool) (response : String)
    (fs : FS) (faults : List Bool) (P : W → Prop)
    (hemit : ∀ w s, P w → P (emit w (.print s)))
    (hplan : ∀ w n p, P w → P (emit w (.planPrint n p)))
    (hrf : ∀ w p n, p ∈ dbOnlyAllowed env (get_dev_data_dir fs env.cwd) → P w →
      P ((remove_file w p n).1))
    (h0 : P (initW fs faults)) :
    P (mainDbOnly env force response (initW fs faults)) := by
  have hdb := dbOnly_invariant env (get_dev_data_dir fs env.cwd) P hemit hrf
  unfold mainDbOnly
  dsimp only
  rw [show (emit (initW fs faults)
    (Event.print "=== AU Archive Reset Script (DB Only) ===")).fs = fs from rfl]
  have hhdr := hemit _ "=== AU Archive Reset Script (DB Only) ===" h0
  cases force with
  | false =>
    simp only [Bool.not_false, eq_self_iff_true, if_true]
    rcases hdev : get_dev_data_dir fs env.cwd with _ | d
    · rw [hdev] at hdb
      dsimp only
      split
      · exact hdb _ (hplan _ _ _ hhdr)
      · exact hemit _ _ (hplan _ _ _ hhdr)
    · rw [hdev] at hdb
      dsimp only
      split
      · exact hdb _ (hplan _ _ _ (hplan _ _ _ hhdr))
      · exact hemit _ _ (hplan _ _ _ (hplan _ _ _ hhdr))
  | true =>
    simp only [Bool.not_true, Bool.false_eq_true, if_false]
    exact hdb _ hhdr

theorem dirs_rf (w : W) (p : PyPath) (n : String) :
    ((remove_file w p n).1).fs.dirs = w.fs.dirs := by
  rw [remove_file_fs]
  split <;> rfl

theorem files_mem_rf (w : W) (p : PyPath) (n : String) (q : PyPath) (hne : q ≠ p) :
    (q ∈ ((remove_file w p n).1).fs.files ↔ q ∈ w.fs.files) := by
  rw [remove_file_fs]
  split
  · simp [unlinkFS, List.mem_filter, hne]
  · exact Iff.rfl

theorem sidecar_child (y : PyPath) (s t : String) :
    sidecar (y.child s) t = y.child (s ++ t) := by
  simp [sidecar, parent_child, name_child]

/-- The bootstrap config path differs from every db-only removal target
(the final components differ). -/
theorem config_ne_dbOnlyAllowed (env : Env) (dev : Option PyPath) :
    ∀ p ∈ dbOnlyAllowed env dev, get_bootstrap_config_path env ≠ p := by
  have hdb : get_default_db_path env =
      ((get_config_dir env).child "data").child "au-archive.db" := rfl
  have hcfg : get_bootstrap_config_path env = (get_config_dir env).child "config.json" := rfl
  intro p hp
  rw [hcfg]
  cases dev with
  | none =>
    simp only [dbOnlyAllowed, hdb, sidecar_child, List.append_nil, List.mem_cons,
      List.not_mem_nil, or_false] at hp
    rcases hp with rfl | rfl | rfl <;> exact child_ne_child _ _ _ _ (by decide)
  | some d =>
    simp only [dbOnlyAllowed, hdb, sidecar_child, List.mem_append, List.mem_cons,
      List.not_mem_nil, or_false] at hp
    rcases hp with (rfl | rfl | rfl) | (rfl | rfl | rfl) <;>
      exact child_ne_child _ _ _ _ (by decide)

/-- C4. A `--db-only` run only ever attempts to remove the database
file and its WAL/SHM sidecars (primary, and dev when detected): every
attempted target lies in that set, no directory entry is ever touched
(so the backups directory survives), and the config file's presence is
unchanged. -/
theorem db_only_frame (env : Env) (archive : Option String) (force : Bool)
    (fs : FS) (faults : List Bool) (response : String) :
    attemptTargets (main env archive force true response (initW fs faults)).trace ⊆
      dbOnlyAllowed env (get_dev_data_dir fs env.cwd) ∧
    (main env archive force true response (initW fs faults)).fs.dirs = fs.dirs ∧
    (get_bootstrap_config_path env ∈
        (main env archive force true response (initW fs faults)).fs.files ↔
      get_bootstrap_config_path env ∈ fs.files) := by
  rw [show main env archive force true response (initW fs faults) =
    mainDbOnly env force response (initW fs faults) from rfl]
  refine ⟨?_, ?_, ?_⟩
  · exact mainDbOnly_invariant env force response fs faults
      (fun w => attemptTargets w.trace ⊆ dbOnlyAllowed env (get_dev_data_dir fs env.cwd))
      (fun w s h => by simpa [emit_trace, attemptTargets_append] using h)
      (fun w n p h => by simpa [emit_trace, attemptTargets_append] using h)
      (fun w p n hp h => by
        dsimp only
        rw [remove_file_trace, attemptTargets_append, attemptTargets_removeFileEvent]
        exact List.append_subset.mpr ⟨h, by simpa using hp⟩)
      (by simp [initW, attemptTargets])
  · exact mainDbOnly_invariant env force response fs faults
      (fun w => w.fs.dirs = fs.dirs)
      (fun w s h => h)
      (fun w n p h => h)
      (fun w p n hp h => by dsimp only; rw [dirs_rf]; exact h)
      rfl
  · exact mainDbOnly_invariant env force response fs faults
      (fun w => (get_bootstrap_config_path env ∈ w.fs.files ↔
        get_bootstrap_config_path env ∈ fs.files))
      (fun w s h => h)
      (fun w n p h => h)
      (fun w p n hp h =>
        (files_mem_rf w p n _ (config_ne_dbOnlyAllowed env _ p hp)).trans h)
      Iff.rfl

/-- Witness for `db_only_frame`: a forced db-only run on a fixture
holding the config file, the database and a backups directory. -/
theorem db_only_frame_witness :
    attemptTargets (main ⟨"Linux", ⟨true, ["h"]⟩, none, ⟨true, ["w"]⟩⟩ none true true ""
        (initW ⟨[⟨true, ["h", ".config", "@au-archive", "desktop", "config.json"]⟩,
                 ⟨true, ["h", ".config", "@au-archive", "desktop", "data", "au-archive.db"]⟩],
                [⟨true, ["h", ".config", "@au-archive", "desktop", "backups"]⟩]⟩ [])).trace ⊆
      dbOnlyAllowed ⟨"Linux", ⟨true, ["h"]⟩, none, ⟨true, ["w"]⟩⟩
        (get_dev_data_dir ⟨[⟨true, ["h", ".config", "@au-archive", "desktop", "config.json"]⟩,
                 ⟨true, ["h", ".config", "@au-archive", "desktop", "data", "au-archive.db"]⟩],
                [⟨true, ["h", ".config", "@au-archive", "desktop", "backups"]⟩]⟩ ⟨true, ["w"]⟩) ∧
    (main ⟨"Linux", ⟨true, ["h"]⟩, none, ⟨true, ["w"]⟩⟩ none true true ""
        (initW ⟨[⟨true, ["h", ".config", "@au-archive", "desktop", "config.json"]⟩,
                 ⟨true, ["h", ".config", "@au-archive", "desktop", "data", "au-archive.db"]⟩],
                [⟨true, ["h", ".config", "@au-archive", "desktop", "backups"]⟩]⟩ [])).fs.dirs =
      [⟨true, ["h", ".config", "@au-archive", "desktop", "backups"]⟩] ∧
    (get_bootstrap_config_path ⟨"Linux", ⟨true, ["h"]⟩, none, ⟨true, ["w"]⟩⟩ ∈
        (main ⟨"Linux", ⟨true, ["h"]⟩, none, ⟨true, ["w"]⟩⟩ none true true ""
          (initW ⟨[⟨true, ["h", ".config", "@au-archive", "desktop", "config.json"]⟩,
                 ⟨true, ["h", ".config", "@au-archive", "desktop", "data", "au-archive.db"]⟩],
                [⟨true, ["h", ".config", "@au-archive", "desktop", "backups"]⟩]⟩ [])).fs.files ↔
      get_bootstrap_config_path ⟨"Linux", ⟨true, ["h"]⟩, none, ⟨true, ["w"]⟩⟩ ∈
        [⟨true, ["h", ".config", "@au-archive", "desktop", "config.json"]⟩,
         ⟨true, ["h", ".config", "@au-archive", "desktop", "data", "au-archive.db"]⟩]) :=
  db_only_frame _ none true _ [] ""

theorem mem_takeWhile_of_prefix {α : Type} (p : α → Bool) (l₁ l₂ : List α) (e : α)
    (hall : l₁.all p = true) (he : e ∈ l₁) : e ∈ (l₁ ++ l₂).takeWhile p := by
  induction l₁ with
  | nil => cases he
  | cons a t ih =>
    simp only [List.all_cons, Bool.and_eq_true] at hall
    rw [List.cons_append, List.takeWhile_cons]
    rw [hall.1]
    rcases List.mem_cons.mp he with rfl | he2
    · exact List.mem_cons_self _ _
    · exact List.mem_cons_of_mem _ (ih hall.2 he2)

/-- C9 counterexample. A forced `--db-only` run removes the database
yet prints no plan line at all beforehand: the path appears only in the
per-removal status message, refuting "every run prints the database
path(s) ... before any removal, regardless of whether force-mode is
set". -/
theorem db_only_force_no_plan_cex :
    ((main ⟨"Linux", ⟨true, ["h"]⟩, none, ⟨true, ["w"]⟩⟩ none true true ""
        (initW ⟨[⟨true, ["h", ".config", "@au-archive", "desktop", "data",
          "au-archive.db"]⟩], []⟩ [])).trace.all (fun e =>
          match e with
          | .planPrint _ _ => false
          | _ => true)) = true ∧
    get_default_db_path ⟨"Linux", ⟨true, ["h"]⟩, none, ⟨true, ["w"]⟩⟩ ∈
      removalTargets (main ⟨"Linux", ⟨true, ["h"]⟩, none, ⟨true, ["w"]⟩⟩ none true true ""
        (initW ⟨[⟨true, ["h", ".config", "@au-archive", "desktop", "data",
          "au-archive.db"]⟩], []⟩ [])).trace := by
  decide

/-- C9 amended. In `--db-only` mode without force, the database path —
and the dev database path when a dev data directory is detected — is
printed in a plan line before any removal is attempted; a forced
db-only run prints no plan line at all. -/
theorem db_only_plan_before_removals (env : Env) (archive : Option String)
    (fs : FS) (faults : List Bool) (response : String) :
    (Event.planPrint "Will remove" (get_default_db_path env) ∈
      ((main env archive false true response (initW fs faults)).trace.takeWhile
        (fun e => !isAttemptEvent e)) ∧
    (∀ d, get_dev_data_dir fs env.cwd = some d →
      Event.planPrint "Will remove" (d.child "au-archive.db") ∈
        ((main env archive false true response (initW fs faults)).trace.takeWhile
          (fun e => !isAttemptEvent e)))) ∧
    ((main env archive true true response (initW fs faults)).trace.all (fun e =>
      match e with
      | .planPrint _ _ => false
      | _ => true)) = true := by
  have hnoplanEvent : ∀ (fs2 : FS) (faults2 : List Bool) (p : PyPath) (n : String),
      (fun e => match e with
        | Event.planPrint _ _ => false
        | _ => true) (removeFileEvent fs2 faults2 p n) = true := by
    intro fs2 faults2 p n
    unfold removeFileEvent
    split
    · split
      · rfl
      · split <;> rfl
    · rfl
  constructor
  · rw [show main env archive false true response (initW fs faults) =
      mainDbOnly env false response (initW fs faults) from rfl]
    unfold mainDbOnly
    dsimp only
    simp only [Bool.not_false, eq_self_iff_true, if_true]
    rcases hdev : get_dev_data_dir (emit (initW fs faults)
        (.print "=== AU Archive Reset Script (DB Only) ===")).fs env.cwd with _ | d
    · dsimp only
      have hdev2 : get_dev_data_dir fs env.cwd = none := hdev
      constructor
      · split
        · obtain ⟨t, ht⟩ := dbOnly_invariant env none
            (fun w2 => (emit (emit (initW fs faults)
              (.print "=== AU Archive Reset Script (DB Only) ===" ))
              (.planPrint "Will remove" (get_default_db_path env))).trace <+: w2.trace)
            (fun w s h => h.trans (trace_prefix_emit w (.print s)))
            (fun w p n hp h => h.trans (trace_prefix_rf w p n)) _ (List.prefix_refl _)
          rw [← ht]
          exact mem_takeWhile_of_prefix _ _ _ _ (by simp [initW, emit, isAttemptEvent])
            (by simp [initW, emit])
        · rw [emit_trace]
          exact mem_takeWhile_of_prefix _ _ _ _ (by simp [initW, emit, isAttemptEvent])
            (by simp [initW, emit])
      · intro d hd
        rw [hdev2] at hd
        cases hd
    · dsimp only
      have hdev2 : get_dev_data_dir fs env.cwd = some d := hdev
      have hall : ((emit (emit (emit (initW fs faults)
          (Event.print "=== AU Archive Reset Script (DB Only) ==="))
          (Event.planPrint "Will remove" (get_default_db_path env)))
          (Event.planPrint "Will remove" (d.child "au-archive.db"))).trace).all
            (fun e => !isAttemptEvent e) = true := by
        simp [initW, emit, isAttemptEvent]
      rcases haff : isAffirmative response with _ | _
      · simp only [Bool.false_eq_true, if_false]
        rw [emit_trace]
        constructor
        · exact mem_takeWhile_of_prefix _ _ _ _ hall (by simp [initW, emit])
        · intro d2 hd2
          rw [hdev2] at hd2
          cases hd2
          exact mem_takeWhile_of_prefix _ _ _ _ hall (by simp [initW, emit])
      · simp only [eq_self_iff_true, if_true]
        obtain ⟨t, ht⟩ := dbOnly_invariant env (some d)
          (fun w2 => (emit (emit (emit (initW fs faults)
            (Event.print "=== AU Archive Reset Script (DB Only) ==="))
            (Event.planPrint "Will remove" (get_default_db_path env)))
            (Event.planPrint "Will remove" (d.child "au-archive.db"))).trace <+: w2.trace)
          (fun w s h => h.trans (trace_prefix_emit w (.print s)))
          (fun w p n hp h => h.trans (trace_prefix_rf w p n)) _ (List.prefix_refl _)
        rw [← ht]
        constructor
        · exact mem_takeWhile_of_prefix _ _ _ _ hall (by simp [initW, emit])
        · intro d2 hd2
          rw [hdev2] at hd2
          cases hd2
          exact mem_takeWhile_of_prefix _ _ _ _ hall (by simp [initW, emit])
  · rw [show main env archive true true response (initW fs faults) =
      mainDbOnly env true response (initW fs faults) from rfl]
    unfold mainDbOnly
    dsimp only
    simp only [Bool.not_true, Bool.false_eq_true, if_false]
    refine dbOnly_invariant env _ (fun w2 => w2.trace.all (fun e =>
      match e with
      | Event.planPrint _ _ => false
      | _ => true) = true)
      (fun w s h => by simp [emit_trace, List.all_append, h])
      (fun w p n hp h => by
        dsimp only
        dsimp only at h
        rw [remove_file_trace]
        simp [List.all_append, h, hnoplanEvent]) _ ?_
    simp [initW, emit]

/-- Witness for `db_only_plan_before_removals`: a non-forced db-only
run from a project checkout prints both plan lines before any attempt. -/
theorem db_only_plan_before_removals_witness :
    Event.planPrint "Will remove"
        (get_default_db_path ⟨"Linux", ⟨true, ["h"]⟩, none, ⟨true, ["w"]⟩⟩) ∈
      ((main ⟨"Linux", ⟨true, ["h"]⟩, none, ⟨true, ["w"]⟩⟩ none false true "n"
        (initW ⟨[], [⟨true, ["w", "packages", "desktop"]⟩]⟩ [])).trace.takeWhile
          (fun e => !isAttemptEvent e)) ∧
    Event.planPrint "Will remove"
        (PyPath.child ⟨true, ["w", "packages", "desktop", "data"]⟩ "au-archive.db") ∈
      ((main ⟨"Linux", ⟨true, ["h"]⟩, none, ⟨true, ["w"]⟩⟩ none false true "n"
        (initW ⟨[], [⟨true, ["w", "packages", "desktop"]⟩]⟩ [])).trace.takeWhile
          (fun e => !isAttemptEvent e)) :=
  ⟨(db_only_plan_before_removals ⟨"Linux", ⟨true, ["h"]⟩, none, ⟨true, ["w"]⟩⟩ none
      ⟨[], [⟨true, ["w", "packages", "desktop"]⟩]⟩ [] "n").1.1,
   (db_only_plan_before_removals ⟨"Linux", ⟨true, ["h"]⟩, none, ⟨true, ["w"]⟩⟩ none
      ⟨[], [⟨true, ["w", "packages", "desktop"]⟩]⟩ [] "n").1.2
     ⟨true, ["w", "packages", "desktop", "data"]⟩ (by decide)⟩

/-! ### Filesystem-level lemmas for the data-directory claim -/

theorem pathExists_iff (fs : FS) (p : PyPath) :
    pathExists fs p = true ↔ ∃ q ∈ fs.files ++ fs.dirs, p = q ∨ pathLt p q = true := by
  simp only [pathExists, List.any_append, Bool.or_eq_true, List.any_eq_true,
    List.mem_append, beq_iff_eq]
  constructor
  · rintro (⟨q, hq, h⟩ | ⟨q, hq, h⟩)
    · exact ⟨q, Or.inl hq, h⟩
    · exact ⟨q, Or.inr hq, h⟩
  · rintro ⟨q, hq | hq, h⟩
    · exact Or.inl ⟨q, hq, h⟩
    · exact Or.inr ⟨q, hq, h⟩

theorem dirEmpty_iff (fs : FS) (p : PyPath) :
    dirEmpty fs p = true ↔ ∀ q ∈ fs.files ++ fs.dirs, pathLt p q = false := by
  simp only [dirEmpty, List.any_append, Bool.or_eq_true, Bool.not_eq_true',
    Bool.or_eq_false_iff, List.any_eq_false, List.mem_append]
  constructor
  · rintro ⟨h1, h2⟩ q (hq | hq)
    · exact Bool.eq_false_iff.mpr (fun hc => h1 q hq hc)
    · exact Bool.eq_false_iff.mpr (fun hc => h2 q hq hc)
  · intro h
    refine ⟨fun q hq hc => ?_, fun q hq hc => ?_⟩
    · rw [h q (Or.inl hq)] at hc
      cases hc
    · rw [h q (Or.inr hq)] at hc
      cases hc

theorem closed_mem {fs : FS} (hwf : fs.closedUnder) {p q : PyPath}
    (hq : q ∈ fs.files ++ fs.dirs) (hlt : pathLt p q = true) : p ∈ fs.dirs := by
  obtain ⟨⟨habs, hpre⟩, hne⟩ := (pathLt_iff p q).mp hlt
  have hlen : p.parts.length < q.parts.length := by
    rcases lt_or_eq_of_le hpre.length_le with h | h
    · exact h
    · exfalso
      apply hne
      have := hpre.eq_of_length h
      cases p
      cases q
      simp_all
  have hdirs := hwf q hq p.parts.length hlen
  have htake : q.parts.take p.parts.length = p.parts :=
    (List.prefix_iff_eq_take.mp hpre).symm
  have : PyPath.mk q.absolute (q.parts.take p.parts.length) = p := by
    cases p
    simp_all
  rwa [this] at hdirs

theorem not_entry_of_not_exists {fs : FS} {d q : PyPath}
    (hne : pathExists fs d = false) (hlt : pathLt d q = true) :
    q ∉ fs.files ++ fs.dirs := by
  intro hq
  have : pathExists fs d = true := (pathExists_iff _ _).mpr ⟨q, hq, Or.inr hlt⟩
  rw [this] at hne
  cases hne

theorem unlinkFS_eq_self {fs : FS} {p : PyPath} (h : p ∉ fs.files) :
    unlinkFS fs p = fs := by
  rcases fs with ⟨files, dirs⟩
  simp only [unlinkFS, FS.mk.injEq, and_true]
  apply List.filter_eq_self.mpr
  intro q hq
  simp only [bne_iff_ne, ne_eq]
  intro he
  exact h (he ▸ hq)

theorem exists_of_mem_dirs {fs : FS} {d : PyPath} (hd : d ∈ fs.dirs) :
    pathExists fs d = true :=
  (pathExists_iff _ _).mpr ⟨d, List.mem_append_right _ hd, Or.inl rfl⟩

theorem contains_exists {fs : FS} {p : PyPath} (h : p ∈ fs.files) :
    pathExists fs p = true :=
  (pathExists_iff _ _).mpr ⟨p, List.mem_append_left _ h, Or.inl rfl⟩

theorem isDirLike_exists {fs : FS} {p : PyPath} (h : isDirLike fs p = true) :
    pathExists fs p = true := by
  rw [isDirLike, Bool.or_eq_true, List.any_eq_true, List.any_eq_true] at h
  rcases h with ⟨q, hq, hpq⟩ | ⟨q, hq, hpq⟩
  · rw [Bool.or_eq_true, beq_iff_eq] at hpq
    exact (pathExists_iff _ _).mpr ⟨q, List.mem_append_right _ hq, hpq⟩
  · exact (pathExists_iff _ _).mpr ⟨q, List.mem_append_left _ hq, Or.inr hpq⟩

theorem unlink_exists_of_not_le {fs : FS} {f d : PyPath} (hne : pathLe d f = false) :
    pathExists (unlinkFS fs f) d = pathExists fs d := by
  apply Bool.eq_iff_iff.mpr
  rw [pathExists_iff, pathExists_iff]
  constructor
  · rintro ⟨q, hq, hor⟩
    refine ⟨q, ?_, hor⟩
    rcases List.mem_append.mp hq with h | h
    · exact List.mem_append_left _ (List.mem_of_mem_filter h)
    · exact List.mem_append_right _ h
  · rintro ⟨q, hq, hor⟩
    have hqf : q ≠ f := by
      intro he
      subst he
      rcases hor with rfl | hlt
      · rw [pathLe_refl] at hne
        cases hne
      · rw [pathLe_of_pathLt hlt] at hne
        cases hne
    refine ⟨q, ?_, hor⟩
    rcases List.mem_append.mp hq with h | h
    · refine List.mem_append_left _ (List.mem_filter.mpr ⟨h, ?_⟩)
      simp [hqf]
    · exact List.mem_append_right _ h

theorem rmtree_exists_of_sep {fs : FS} {t d : PyPath}
    (h1 : pathLe d t = false) (h2 : pathLe t d = false) :
    pathExists (rmtreeFS fs t) d = pathExists fs d := by
  apply Bool.eq_iff_iff.mpr
  rw [pathExists_iff, pathExists_iff]
  constructor
  · rintro ⟨q, hq, hor⟩
    refine ⟨q, ?_, hor⟩
    rcases List.mem_append.mp hq with h | h
    · exact List.mem_append_left _ (List.mem_of_mem_filter h)
    · exact List.mem_append_right _ (List.mem_of_mem_filter h)
  · rintro ⟨q, hq, hor⟩
    have hdq : pathLe d q = true := by
      rcases hor with rfl | hlt
      · exact pathLe_refl _
      · exact pathLe_of_pathLt hlt
    have htq : pathLe t q = false := by
      rcases h : pathLe t q with _ | _
      · rfl
      · exfalso
        rcases pathLe_comparable h hdq with hc | hc
        · rw [hc] at h2
          cases h2
        · rw [hc] at h1
          cases h1
    refine ⟨q, ?_, hor⟩
    rcases List.mem_append.mp hq with h | h
    · refine List.mem_append_left _ (List.mem_filter.mpr ⟨h, by simp [htq]⟩)
    · exact List.mem_append_right _ (List.mem_filter.mpr ⟨h, by simp [htq]⟩)

theorem rmdir_not_exists {fs : FS} {d : PyPath}
    (he : dirEmpty fs d = true) (hf : d ∉ fs.files) :
    pathExists (rmdirFS fs d) d = false := by
  rcases h : pathExists (rmdirFS fs d) d with _ | _
  · rfl
  · exfalso
    obtain ⟨q, hq, hor⟩ := (pathExists_iff _ _).mp h
    rcases hor with rfl | hlt
    · rcases List.mem_append.mp hq with hm | hm
      · exact hf hm
      · have := (List.mem_filter.mp hm).2
        simp at this
    · have hq2 : q ∈ fs.files ++ fs.dirs := by
        rcases List.mem_append.mp hq with hm | hm
        · exact List.mem_append_left _ hm
        · exact List.mem_append_right _ (List.mem_of_mem_filter hm)
      have := (dirEmpty_iff fs d).mp he q hq2
      rw [this] at hlt
      cases hlt

theorem remove_file_fs_nofault (w : W) (p : PyPath) (n : String)
    (hfa : w.faults = []) : ((remove_file w p n).1).fs = unlinkFS w.fs p := by
  rw [remove_file_fs, hfa]
  by_cases hmem : p ∈ w.fs.files
  · simp [contains_exists hmem, hmem]
  · rw [unlinkFS_eq_self hmem]
    simp [hmem]

theorem remove_file_faults_nil (w : W) (p : PyPath) (n : String)
    (hfa : w.faults = []) : ((remove_file w p n).1).faults = [] := by
  rw [remove_file_faults, hfa]
  split <;> rfl

theorem remove_dir_fs_nofault (w : W) (p : PyPath) (n : String)
    (hfa : w.faults = []) :
    ((remove_dir w p n).1).fs =
      if isDirLike w.fs p = true then rmtreeFS w.fs p else w.fs := by
  rw [remove_dir_fs, hfa]
  by_cases hdl : isDirLike w.fs p = true
  · simp [isDirLike_exists hdl, hdl]
  · simp [hdl]

theorem dataDirCleanup_fs_nofault (w : W) (d : PyPath) (hfa : w.faults = []) :
    (dataDirCleanup w d).fs =
      if dirEmpty w.fs d = true ∧ d ∈ w.fs.dirs then rmdirFS w.fs d else w.fs := by
  rw [dataDirCleanup_fs, hfa]
  by_cases he : dirEmpty w.fs d = true <;> by_cases hm : d ∈ w.fs.dirs <;>
    simp [he, hm]

theorem rf_exists_pres (w : W) (p : PyPath) (n : String) {d : PyPath}
    (hne : pathLe d p = false) :
    pathExists ((remove_file w p n).1).fs d = pathExists w.fs d := by
  rw [remove_file_fs]
  split
  · exact unlink_exists_of_not_le hne
  · rfl

theorem rd_exists_pres (w : W) (p : PyPath) (n : String) {d : PyPath}
    (h1 : pathLe d p = false) (h2 : pathLe p d = false) :
    pathExists ((remove_dir w p n).1).fs d = pathExists w.fs d := by
  rw [remove_dir_fs]
  split
  · exact rmtree_exists_of_sep h1 h2
  · rfl

theorem exists_imp_dirs_mem {fs : FS} (hwf : fs.closedUnder) {d : PyPath}
    (hfile : d ∉ fs.files) (fs2 : FS)
    (hsubf : ∀ q ∈ fs2.files, q ∈ fs.files) (hdirs : fs2.dirs = fs.dirs)
    (hex : pathExists fs2 d = true) : d ∈ fs.dirs := by
  obtain ⟨q, hq, hor⟩ := (pathExists_iff _ _).mp hex
  rcases List.mem_append.mp hq with hm | hm
  · rcases hor with rfl | hlt
    · exact absurd (hsubf _ hm) hfile
    · exact closed_mem hwf (List.mem_append_left _ (hsubf _ hm)) hlt
  · rw [hdirs] at hm
    rcases hor with rfl | hlt
    · exact hm
    · exact closed_mem hwf (List.mem_append_right _ hm) hlt

theorem resetDevRemovals_exists_pres (d : PyPath) (w : W) {dd : PyPath}
    (hs : devSeparate dd d) :
    pathExists (resetDevRemovals d w).fs dd = pathExists w.fs dd := by
  obtain ⟨h1, h2, h3, h4, h5, h6⟩ := hs
  unfold resetDevRemovals
  dsimp only
  rw [rd_exists_pres _ _ _ h5 h6, rf_exists_pres _ _ _ h4, rf_exists_pres _ _ _ h3,
    rf_exists_pres _ _ _ h2, rf_exists_pres _ _ _ h1, emit_fs]

theorem resetArchiveRemovals_exists_pres (a : String) (w : W) {dd : PyPath}
    (hs : archiveSeparate dd a) :
    pathExists (resetArchiveRemovals a w).fs dd = pathExists w.fs dd := by
  obtain ⟨t1, t2, p1, p2, s1, s2⟩ := hs
  unfold resetArchiveRemovals
  dsimp only
  rw [rd_exists_pres _ _ _ s1 s2, rd_exists_pres _ _ _ p1 p2,
    rd_exists_pres _ _ _ t1 t2, emit_fs]

theorem resetFinish_exists_pres (env : Env) (dev : Option PyPath)
    (archive : Option String) (w : W)
    (hdev : devSepAll ((get_config_dir env).child "data") dev)
    (harch : archSepAll ((get_config_dir env).child "data") archive) :
    pathExists (resetFinish env dev archive w).fs ((get_config_dir env).child "data") =
      pathExists w.fs ((get_config_dir env).child "data") := by
  have hbk1 : pathLe ((get_config_dir env).child "data")
      ((get_config_dir env).child "backups") = false :=
    pathLe_child_child _ _ _ (by decide)
  have hbk2 : pathLe ((get_config_dir env).child "backups")
      ((get_config_dir env).child "data") = false :=
    pathLe_child_child _ _ _ (by decide)
  unfold resetFinish
  dsimp only
  cases dev with
  | none =>
    cases archive with
    | none => rw [emit_fs, rd_exists_pres _ _ _ hbk1 hbk2]
    | some a =>
      rw [emit_fs, resetArchiveRemovals_exists_pres _ _ harch,
        rd_exists_pres _ _ _ hbk1 hbk2]
  | some d =>
    cases archive with
    | none =>
      rw [emit_fs, resetDevRemovals_exists_pres _ _ hdev,
        rd_exists_pres _ _ _ hbk1 hbk2]
    | some a =>
      rw [emit_fs, resetArchiveRemovals_exists_pres _ _ harch,
        resetDevRemovals_exists_pres _ _ hdev, rd_exists_pres _ _ _ hbk1 hbk2]

/-- Core of the data-directory claim, at the level of the removal
sequence: the data directory survives a fault-free confirmed full reset
exactly when it exists and is non-empty at the point after the
database, config, and journal files were removed. -/
theorem resetRemovals_data_dir (env : Env) (dev : Option PyPath)
    (archive : Option String) (w : W) (hfa : w.faults = [])
    (hwf : w.fs.closedUnder)
    (hfile : (get_config_dir env).child "data" ∉ w.fs.files)
    (hdev : devSepAll ((get_config_dir env).child "data") dev)
    (harch : archSepAll ((get_config_dir env).child "data") archive) :
    pathExists (resetRemovals env dev archive w).fs ((get_config_dir env).child "data") =
      (pathExists (midFS env w.fs) ((get_config_dir env).child "data") &&
       !dirEmpty (midFS env w.fs) ((get_config_dir env).child "data")) := by
  unfold resetRemovals
  dsimp only
  set dd := (get_config_dir env).child "data" with hdd
  set w1 := emit w (Event.print "Removing files...") with hw1
  set w2 := (remove_file w1 (get_default_db_path env) "Database").1 with hw2def
  set w3 := (remove_file w2 (get_bootstrap_config_path env) "Config").1 with hw3def
  have hw1fa : w1.faults = [] := hfa
  have hw2fa : w2.faults = [] := remove_file_faults_nil _ _ _ hw1fa
  have hw3fa : w3.faults = [] := remove_file_faults_nil _ _ _ hw2fa
  have hw2fs : w2.fs = unlinkFS w.fs (get_default_db_path env) := by
    rw [hw2def, remove_file_fs_nofault _ _ _ hw1fa, hw1, emit_fs]
  have hw3fs : w3.fs = unlinkFS (unlinkFS w.fs (get_default_db_path env))
      (get_bootstrap_config_path env) := by
    rw [hw3def, remove_file_fs_nofault _ _ _ hw2fa, hw2fs]
  rw [resetFinish_exists_pres env dev archive _ hdev harch]
  split
  case isTrue hx =>
    unfold resetJournal
    dsimp only
    set w4 := (remove_file w3 (sidecar (get_default_db_path env) "-wal")
      "Database -wal file").1 with hw4def
    set w5 := (remove_file w4 (sidecar (get_default_db_path env) "-shm")
      "Database -shm file").1 with hw5def
    have hw4fa : w4.faults = [] := remove_file_faults_nil _ _ _ hw3fa
    have hw5fa : w5.faults = [] := remove_file_faults_nil _ _ _ hw4fa
    have hw4fs : w4.fs = unlinkFS w3.fs (sidecar (get_default_db_path env) "-wal") := by
      rw [hw4def, remove_file_fs_nofault _ _ _ hw3fa]
    have hw5fs : w5.fs = midFS env w.fs := by
      rw [hw5def, remove_file_fs_nofault _ _ _ hw4fa, hw4fs, hw3fs]
      rfl
    have hmemdirs : dd ∈ w.fs.dirs := by
      refine exists_imp_dirs_mem hwf hfile w3.fs ?_ ?_ hx
      · rw [hw3fs]
        intro q hq
        exact List.mem_of_mem_filter (List.mem_of_mem_filter hq)
      · rw [hw3fs]
        rfl
    have hmem5 : dd ∈ w5.fs.dirs := by
      rw [hw5fs]
      exact hmemdirs
    have hsub5 : ∀ q ∈ w5.fs.files, q ∈ w.fs.files := by
      rw [hw5fs]
      intro q hq
      exact List.mem_of_mem_filter (List.mem_of_mem_filter
        (List.mem_of_mem_filter (List.mem_of_mem_filter hq)))
    have hfile5 : dd ∉ w5.fs.files := fun hm => hfile (hsub5 _ hm)
    rw [dataDirCleanup_fs_nofault _ _ hw5fa]
    by_cases hemp : dirEmpty w5.fs dd = true
    · rw [if_pos ⟨hemp, hmem5⟩]
      rw [rmdir_not_exists hemp hfile5]
      rw [hw5fs] at hemp
      rw [hemp]
      simp
    · rw [if_neg (fun hc => hemp hc.1)]
      have hlex : pathExists w5.fs dd = true := exists_of_mem_dirs hmem5
      have hempf : dirEmpty w5.fs dd = false := Bool.eq_false_iff.mpr hemp
      rw [hw5fs] at hlex hempf
      rw [hw5fs, hlex, hempf]
      rfl
  case isFalse hx =>
    have hxf : pathExists w3.fs dd = false := Bool.eq_false_iff.mpr hx
    have hdb : get_default_db_path env = dd.child "au-archive.db" := rfl
    have hwal : pathLt dd (sidecar (get_default_db_path env) "-wal") = true := by
      rw [hdb, sidecar_child]
      exact pathLt_child _ _
    have hshm : pathLt dd (sidecar (get_default_db_path env) "-shm") = true := by
      rw [hdb, sidecar_child]
      exact pathLt_child _ _
    have hnwal : sidecar (get_default_db_path env) "-wal" ∉ w3.fs.files := by
      intro hm
      exact not_entry_of_not_exists hxf hwal (List.mem_append_left _ hm)
    have hnshm : sidecar (get_default_db_path env) "-shm" ∉ w3.fs.files := by
      intro hm
      exact not_entry_of_not_exists hxf hshm (List.mem_append_left _ hm)
    have hmid : midFS env w.fs = w3.fs := by
      unfold midFS
      rw [← hw3fs, unlinkFS_eq_self hnwal, unlinkFS_eq_self hnshm]
    rw [hmid, hxf]
    rfl

/-- C2. In a fault-free forced full reset, after the database, config
and journal files are removed, the data directory is removed if and
only if it is empty at that point: it is absent from the final
filesystem exactly when it did not exist-and-hold-entries at the
emptiness test (`midFS`), so any other remaining file retains it. The
separation hypotheses say the (optional) dev and archive removal
targets do not overlap the data directory, as in the layout the host
application produces. -/
theorem data_dir_removed_iff_empty (env : Env) (archive : Option String)
    (fs : FS) (response : String)
    (hwf : fs.closedUnder)
    (hfile : (get_config_dir env).child "data" ∉ fs.files)
    (hdev : devSepAll ((get_config_dir env).child "data") (get_dev_data_dir fs env.cwd))
    (harch : archSepAll ((get_config_dir env).child "data") archive) :
    pathExists (reset_database env archive true response (initW fs [])).fs
        ((get_config_dir env).child "data") =
      (pathExists (midFS env fs) ((get_config_dir env).child "data") &&
       !dirEmpty (midFS env fs) ((get_config_dir env).child "data")) := by
  unfold reset_database
  dsimp only
  rw [show (emit (initW fs []) (Event.print "=== AU Archive Reset Script ===")).fs = fs
    from rfl]
  simp only [Bool.true_or, eq_self_iff_true, if_true]
  have hW2fs : (resetPlanPrints env (get_dev_data_dir fs env.cwd) archive
      (emit (initW fs []) (Event.print "=== AU Archive Reset Script ==="))).fs = fs := by
    rw [resetPlanPrints_fs]
    rfl
  have h := resetRemovals_data_dir env (get_dev_data_dir fs env.cwd) archive
    (resetPlanPrints env (get_dev_data_dir fs env.cwd) archive
      (emit (initW fs []) (Event.print "=== AU Archive Reset Script ===")))
    (by rw [resetPlanPrints_faults]; rfl)
    (by rw [hW2fs]; exact hwf)
    (by rw [hW2fs]; exact hfile)
    hdev harch
  rw [hW2fs] at h
  exact h

/-- Witness for `data_dir_removed_iff_empty`: a Linux fixture whose
data directory holds only the database and its WAL file, with an
archive root supplied. -/
theorem data_dir_removed_iff_empty_witness :
    pathExists (reset_database ⟨"Linux", ⟨true, ["h"]⟩, none, ⟨true, ["w"]⟩⟩
        (some "/arch") true "x"
        (initW ⟨[⟨true, ["h", ".config", "@au-archive", "desktop", "data", "au-archive.db"]⟩,
                 ⟨true, ["h", ".config", "@au-archive", "desktop", "data",
                   "au-archive.db-wal"]⟩,
                 ⟨true, ["h", ".config", "@au-archive", "desktop", "config.json"]⟩,
                 ⟨true, ["h", ".config", "@au-archive", "desktop", "backups", "old.bak"]⟩],
                [⟨true, []⟩, ⟨true, ["h"]⟩, ⟨true, ["h", ".config"]⟩,
                 ⟨true, ["h", ".config", "@au-archive"]⟩,
                 ⟨true, ["h", ".config", "@au-archive", "desktop"]⟩,
                 ⟨true, ["h", ".config", "@au-archive", "desktop", "data"]⟩,
                 ⟨true, ["h", ".config", "@au-archive", "desktop", "backups"]⟩]⟩ [])).fs
      ((get_config_dir ⟨"Linux", ⟨true, ["h"]⟩, none, ⟨true, ["w"]⟩⟩).child "data") =
    (pathExists (midFS ⟨"Linux", ⟨true, ["h"]⟩, none, ⟨true, ["w"]⟩⟩
        ⟨[⟨true, ["h", ".config", "@au-archive", "desktop", "data", "au-archive.db"]⟩,
          ⟨true, ["h", ".config", "@au-archive", "desktop", "data", "au-archive.db-wal"]⟩,
          ⟨true, ["h", ".config", "@au-archive", "desktop", "config.json"]⟩,
          ⟨true, ["h", ".config", "@au-archive", "desktop", "backups", "old.bak"]⟩],
         [⟨true, []⟩, ⟨true, ["h"]⟩, ⟨true, ["h", ".config"]⟩,
          ⟨true, ["h", ".config", "@au-archive"]⟩,
          ⟨true, ["h", ".config", "@au-archive", "desktop"]⟩,
          ⟨true, ["h", ".config", "@au-archive", "desktop", "data"]⟩,
          ⟨true, ["h", ".config", "@au-archive", "desktop", "backups"]⟩]⟩)
      ((get_config_dir ⟨"Linux", ⟨true, ["h"]⟩, none, ⟨true, ["w"]⟩⟩).child "data") &&
     !dirEmpty (midFS ⟨"Linux", ⟨true, ["h"]⟩, none, ⟨true, ["w"]⟩⟩
        ⟨[⟨true, ["h", ".config", "@au-archive", "desktop", "data", "au-archive.db"]⟩,
          ⟨true, ["h", ".config", "@au-archive", "desktop", "data", "au-archive.db-wal"]⟩,
          ⟨true, ["h", ".config", "@au-archive", "desktop", "config.json"]⟩,
          ⟨true, ["h", ".config", "@au-archive", "desktop", "backups", "old.bak"]⟩],
         [⟨true, []⟩, ⟨true, ["h"]⟩, ⟨true, ["h", ".config"]⟩,
          ⟨true, ["h", ".config", "@au-archive"]⟩,
          ⟨true, ["h", ".config", "@au-archive", "desktop"]⟩,
          ⟨true, ["h", ".config", "@au-archive", "desktop", "data"]⟩,
          ⟨true, ["h", ".config", "@au-archive", "desktop", "backups"]⟩]⟩)
      ((get_config_dir ⟨"Linux", ⟨true, ["h"]⟩, none, ⟨true, ["w"]⟩⟩).child "data")) :=
  data_dir_removed_iff_empty ⟨"Linux", ⟨true, ["h"]⟩, none, ⟨true, ["w"]⟩⟩ (some "/arch")
    ⟨[⟨true, ["h", ".config", "@au-archive", "desktop", "data", "au-archive.db"]⟩,
      ⟨true, ["h", ".config", "@au-archive", "desktop", "data", "au-archive.db-wal"]⟩,
      ⟨true, ["h", ".config", "@au-archive", "desktop", "config.json"]⟩,
      ⟨true, ["h", ".config", "@au-archive", "desktop", "backups", "old.bak"]⟩],
     [⟨true, []⟩, ⟨true, ["h"]⟩, ⟨true, ["h", ".config"]⟩,
      ⟨true, ["h", ".config", "@au-archive"]⟩,
      ⟨true, ["h", ".config", "@au-archive", "desktop"]⟩,
      ⟨true, ["h", ".config", "@au-archive", "desktop", "data"]⟩,
      ⟨true, ["h", ".config", "@au-archive", "desktop", "backups"]⟩]⟩ "x"
    (by decide) (by decide) (by decide) (by decide)

end ResetDb
